import Mathlib

/-!
# Verification of the sse-map2 marker mutation pipeline

Shallow embedding of the repository's core JavaScript sources:

* `tools/issue_parser.js`    — the issue-form text parser (`parseIssueFormBody`);
* `tools/apply_marker_issue.js` — the mutation engine (`applyMutation` and helpers);
* `tools/validate_geojson.js` — the schema validator (`validateGeoJSON`).

Modelling conventions:

* JS strings are Lean `String`s; JS numbers appearing in the dataset are
  modelled as `ℚ` (the dataset is produced by `JSON.parse`, so all numbers
  are finite decimals; no NaN/Infinity can occur in stored data).
* `undefined` is modelled by `Option.none`.
* The engine's impure inputs (`new Date().toISOString()`, `generateId`,
  JavaScript's `Number(...)` coercion) are threaded through an `Env`
  record: `now` is the timestamp string, `genId` the id `generateId`
  would produce, and `jsNum s` is `Number(s)` returning `none` exactly
  when the result is not finite (the condition under which
  `parseNumber` throws).
* The validator's dependence on the WHATWG `URL` parser and `Date.parse`
  is abstracted into two boolean predicates `urlOk`/`dateOk` passed as
  arguments; every theorem about the validator is proved for all such
  predicates.
* The engine can throw (one `validateCoordinateRange` call sits outside
  the `try` block); a run of `applyMutation` therefore yields an
  `MStatus` that is either a returned outcome record or a thrown error,
  always paired with the collection state at the moment of return/throw.
-/

namespace SseMap

/-! ## JavaScript string primitives -/

/-- The whitespace characters recognised by the JS `\s` class and
`String.prototype.trim` that can occur in our inputs. -/
def isJsWs (c : Char) : Bool :=
  c = ' ' ∨ c = '\t' ∨ c = '\n' ∨ c = '\r' ∨ c = '\x0b' ∨ c = '\x0c' ∨
  c = ' ' ∨ c = '﻿'

/-- Drop leading and trailing JS whitespace from a character list. -/
def jsTrimList (cs : List Char) : List Char :=
  (((cs.dropWhile isJsWs).reverse).dropWhile isJsWs).reverse

/-- JS `String.prototype.trim`. -/
def jsTrim (s : String) : String :=
  ⟨jsTrimList s.data⟩

/-- JS `String.prototype.toLowerCase` (ASCII-adequate). -/
def toLowerStr (s : String) : String :=
  ⟨s.data.map Char.toLower⟩

/-- Does `l` begin with `pre`? -/
def startsWithL : List Char → List Char → Bool
  | _, [] => true
  | [], _ :: _ => false
  | c :: rest, p :: ps => c = p && startsWithL rest ps

/-- Does `hay` contain `needle` as a contiguous substring? -/
def containsSub : List Char → List Char → Bool
  | [], needle => needle.isEmpty
  | hay@(_ :: rest), needle => startsWithL hay needle || containsSub rest needle

/-- Lowercase alphanumeric test, used after `toLowerCase` (mirrors the
`[^a-z0-9]` class of `normalizeHeading`). -/
def isAlnum (c : Char) : Bool :=
  ('a' ≤ c ∧ c ≤ 'z') ∨ ('0' ≤ c ∧ c ≤ '9')

theorem length_dropWhile_le' {p : Char → Bool} :
    ∀ l : List Char, (l.dropWhile p).length ≤ l.length := by
  intro l
  induction l with
  | nil => simp [List.dropWhile]
  | cons c rest ih =>
    by_cases h : p c
    · simp only [List.dropWhile, h]
      exact Nat.le_succ_of_le ih
    · simp [List.dropWhile, h]

/-- Scanner for `replace(/[^a-z0-9]+/g, '_')`: the flag records whether
we are inside a non-alphanumeric run (which already emitted its `_`). -/
def collapseNA : List Char → Bool → List Char
  | [], _ => []
  | c :: rest, skipping =>
    if isAlnum c then c :: collapseNA rest false
    else if skipping then collapseNA rest true
    else '_' :: collapseNA rest true

/-- `replace(/[^a-z0-9]+/g, '_')`: collapse each maximal run of
non-alphanumeric characters into a single underscore. -/
def collapseNonAlnum (cs : List Char) : List Char :=
  collapseNA cs false

/-- `replace(/^_+|_+$/g, '')`. -/
def stripEdgeUnderscores (cs : List Char) : List Char :=
  (((cs.dropWhile (fun c => c = '_')).reverse).dropWhile (fun c => c = '_')).reverse

/-- `normalizeHeading` of `tools/issue_parser.js`: lower-case, trim,
collapse non-alphanumeric runs to `_`, strip edge underscores. -/
def normalizeHeading (s : String) : String :=
  ⟨stripEdgeUnderscores (collapseNonAlnum (jsTrimList (s.data.map Char.toLower)))⟩

/-- `body.replace(/\r\n/g, '\n')`. -/
def stripCrlf : List Char → List Char
  | '\r' :: '\n' :: rest => '\n' :: stripCrlf rest
  | c :: rest => c :: stripCrlf rest
  | [] => []

/-- `split('\n')`. -/
def splitLinesAux : List Char → List Char → List String
  | [], acc => [⟨acc.reverse⟩]
  | '\n' :: rest, acc => (⟨acc.reverse⟩ : String) :: splitLinesAux rest []
  | c :: rest, acc => splitLinesAux rest (c :: acc)

def splitLines (cs : List Char) : List String :=
  splitLinesAux cs []

/-! ## Form-text parser (`tools/issue_parser.js`) -/

/-- One parsed form field: `{raw, value, checked}`. -/
structure Field where
  raw : String
  value : String
  checked : Bool
deriving DecidableEq, Repr

/-- The parsed form record: association list keyed by normalized heading
(JS object keyed by string; insertion order is irrelevant to lookups). -/
abbrev Parsed := List (String × Field)

def lookupKey : Parsed → String → Option Field
  | [], _ => none
  | (k0, f) :: rest, k => if k0 = k then some f else lookupKey rest k

/-- JS object assignment `result[key] = field` (replaces an existing
binding, else appends). -/
def setKey : Parsed → String → Field → Parsed
  | [], k, f => [(k, f)]
  | (k0, f0) :: rest, k, f =>
    if k0 = k then (k, f) :: rest else (k0, f0) :: setKey rest k f

/-- Consume a maximal run of JS whitespace, reporting whether the last
character consumed was a newline (this decides whether the position after
the run is a line start for the multiline `^` anchor). -/
def consumeWs : List Char → Bool → List Char × Bool
  | c :: rest, lastNl =>
    if isJsWs c then consumeWs rest (c = '\n') else (c :: rest, lastNl)
  | [], lastNl => ([], lastNl)

theorem consumeWs_length_le : ∀ (l : List Char) (b : Bool),
    (consumeWs l b).1.length ≤ l.length := by
  intro l
  induction l with
  | nil => intro b; simp [consumeWs]
  | cons c rest ih =>
    intro b
    by_cases h : isJsWs c
    · simp only [consumeWs, h, if_pos]
      exact Nat.le_succ_of_le (ih (c = '\n'))
    · simp [consumeWs, h]

/-- The checked-checkbox marker `- [x]` (or `- [X]`) as a char list test. -/
def checkedMarkerAt (l : List Char) : Bool :=
  startsWithL l "- [x]".data || startsWithL l "- [X]".data

/-- Fuel-indexed scanner for `replace(/^- \[(?:x|X)\]\s*/gm, '')`; the
fuel (any bound on the list length, here its length) only forces
structural termination and never runs out. -/
def stripCBFuel : Nat → List Char → Bool → List Char
  | 0, _, _ => []
  | _ + 1, [], _ => []
  | fuel + 1, c :: rest, atStart =>
    if atStart ∧ checkedMarkerAt (c :: rest) then
      stripCBFuel fuel (consumeWs (rest.drop 4) false).1 (consumeWs (rest.drop 4) false).2
    else c :: stripCBFuel fuel rest (c = '\n')

/-- `replace(/^- \[(?:x|X)\]\s*/gm, '')`: at each line start, remove a
leading `- [x]`/`- [X]` marker together with the following whitespace run
(`\s` includes newlines).  The boolean argument records whether the
current position is a line start in the original string. -/
def stripCheckedBoxes (cs : List Char) (atStart : Bool) : List Char :=
  stripCBFuel cs.length cs atStart

/-- The cleaned `value` as computed from `raw` inside `flush`:
`raw.replace(/^_No response_$/i, '').replace(/^- \[(?:x|X)\]\s*/gm, '').trim()`.
The first regex is anchored at both ends without the `m` flag, so it only
fires when the whole raw body is the placeholder. -/
def cleanOfRaw (raw : String) : String :=
  let afterNoResp := if toLowerStr raw = "_no response_" then "" else raw
  jsTrim ⟨stripCheckedBoxes afterNoResp.data true⟩

/-- `checked` as computed from `raw` inside `flush`: the unanchored
regex test `- \[(?:x|X)\]` applied to `raw`, i.e. a substring test. -/
def rawMarked (raw : String) : Bool :=
  containsSub raw.data "- [x]".data || containsSub raw.data "- [X]".data

/-- Build a `Field` from a raw body (already joined and trimmed). -/
def fieldOfRaw (raw : String) : Field :=
  { raw := raw, value := cleanOfRaw raw, checked := rawMarked raw }

/-- `flush` of `parseIssueFormBody`: the raw body is the buffered lines
joined by newlines and trimmed. -/
def mkField (buffer : List String) : Field :=
  fieldOfRaw (jsTrim (String.intercalate "\n" buffer))

def flushInto (res : Parsed) (curr : Option String) (buffer : List String) : Parsed :=
  match curr with
  | none => res
  | some k => setKey res k (mkField buffer)

/-- The line scanner of `parseIssueFormBody`. -/
def parseLoop : List String → Option String → List String → Parsed → Parsed
  | [], curr, buffer, res => flushInto res curr buffer
  | line :: rest, curr, buffer, res =>
    if startsWithL line.data "### ".data then
      parseLoop rest (some (normalizeHeading ⟨line.data.drop 4⟩)) [] (flushInto res curr buffer)
    else if jsTrim line = "---" then
      parseLoop rest curr buffer res
    else
      match curr with
      | some _ => parseLoop rest curr (buffer ++ [line]) res
      | none => parseLoop rest none buffer res

/-- `parseIssueFormBody` of `tools/issue_parser.js`.  (A falsy or
non-string body yields the empty record in JS; the empty string follows
the same code path here and also yields the empty record.) -/
def parseIssueFormBody (body : String) : Parsed :=
  parseLoop (splitLines (stripCrlf body.data)) none [] []

/-! ## Data model of the mutation engine (`tools/apply_marker_issue.js`)

The engine operates on the dataset loaded from `docs/data/markers.geojson`.
Its feature objects are modelled with the properties the engine itself
reads and writes (`id`, `title`, `description`, `link`, `category`,
`icon`, `updated_at`, `focus_on_load`), each an optional string (absent =
JS `undefined`).  Geometry coordinates are a JS array of numbers; an
entry can be `undefined` (e.g. when an update copies a missing stored
axis), hence `List (Option ℚ)`. -/

structure FProps where
  id : Option String := none
  title : Option String := none
  description : Option String := none
  link : Option String := none
  category : Option String := none
  icon : Option String := none
  updated_at : Option String := none
  focus_on_load : Option Bool := none
deriving DecidableEq, Repr

structure Geometry where
  gtype : String
  coordinates : List (Option ℚ)
deriving DecidableEq, Repr

structure Feature where
  ftype : String
  properties : FProps
  geometry : Option Geometry
deriving DecidableEq, Repr

structure GeoJSON where
  features : List Feature
deriving DecidableEq, Repr

/-- One entry of `issue.labels`; `l.name || ''` makes a missing name the
empty string. -/
structure Label where
  name : String
deriving DecidableEq, Repr

/-- The parts of the issue event record the engine reads. -/
structure Issue where
  body : String
  labels : List Label
deriving DecidableEq, Repr

/-- The engine's impure context: the current ISO timestamp, the id
`generateId(issue.number)` would produce, and JS `Number` coercion
(`none` exactly when the result is not finite). -/
structure Env where
  now : String
  genId : String
  jsNum : String → Option ℚ

/-- Result of one `applyMutation` run: either a returned outcome record
`{ok, message}` or a thrown error. -/
inductive MStatus where
  | outcome (ok : Bool) (message : String)
  | thrown (message : String)
deriving DecidableEq, Repr

def fail (message : String) : MStatus := .outcome false message

def success (message : String) : MStatus := .outcome true message

def MStatus.isOk : MStatus → Bool
  | .outcome true _ => true
  | _ => false

def MStatus.isThrown : MStatus → Bool
  | .thrown _ => true
  | _ => false

inductive IssueType where
  | add
  | update
  | del
deriving DecidableEq, Repr

/-! ## Engine helpers -/

/-- `cleanOptional`: falsy, blank-after-trim, or `(none)`/`(no change)`
(case-insensitive, exact after trim) values are treated as absent. -/
def cleanOptional : Option String → Option String
  | none => none
  | some v =>
    if v = "" then none
    else
      if jsTrim v = "" ∨ toLowerStr (jsTrim v) = "(none)" ∨
          toLowerStr (jsTrim v) = "(no change)" then none
      else some (jsTrim v)

/-- `parseNumber`: absent or empty input is `undefined`; a non-finite
`Number(...)` result throws. -/
def parseNumber (jsNum : String → Option ℚ) (value : Option String) (kind : String) :
    Except String (Option ℚ) :=
  match value with
  | none => .ok none
  | some v =>
    if v = "" then .ok none
    else
      match jsNum v with
      | some q => .ok (some q)
      | none => .error (kind ++ " must be a number.")

def latBad : Option ℚ → Bool
  | none => false
  | some l => l < -90 ∨ l > 90

def lngBad : Option ℚ → Bool
  | none => false
  | some l => l < -180 ∨ l > 180

/-- `validateCoordinateRange` (throws on the first bad axis). -/
def validateCoordinateRange (lat lng : Option ℚ) : Except String Unit :=
  if latBad lat then .error "Latitude must be in range -90..90."
  else if lngBad lng then .error "Longitude must be in range -180..180."
  else .ok ()

/-- Sort key: `a?.properties?.id || ''`. -/
def featKey (f : Feature) : String :=
  match f.properties.id with
  | some s => s
  | none => ""

/-- Strict lexicographic order on character lists (the order
`localeCompare` induces on the ASCII marker ids in play). -/
def lexLt : List Char → List Char → Bool
  | [], [] => false
  | [], _ :: _ => true
  | _ :: _, [] => false
  | a :: as, b :: bs => if a < b then true else if b < a then false else lexLt as bs

/-- `a.localeCompare(b) <= 0`, modelled as the lexicographic `≤`. -/
def strLe (a b : String) : Bool := !(lexLt b.data a.data)

def strOrd (a b : String) : Prop := strLe a b = true

def featOrd (a b : Feature) : Prop := strOrd (featKey a) (featKey b)

instance : DecidableRel strOrd := fun a b =>
  inferInstanceAs (Decidable (strLe a b = true))

instance : DecidableRel featOrd := fun a b =>
  inferInstanceAs (Decidable (strOrd (featKey a) (featKey b)))

/-- `stableSortFeatures`: stable sort by id (modern JS `Array.sort` is
stable; `localeCompare` on the ASCII ids in play is modelled as the
lexicographic string order). -/
def stableSortFeatures (l : List Feature) : List Feature :=
  List.insertionSort featOrd l

/-- `labels.map((l) => (l.name || '').toLowerCase())`. -/
def lowerNames (labels : List Label) : List String :=
  labels.map fun l => toLowerStr l.name

/-- `parseIssueType`: first matching label wins in the order add,
update, delete; matching is case-insensitive. -/
def parseIssueType (labels : List Label) : Option IssueType :=
  if (lowerNames labels).contains "marker-add" then some .add
  else if (lowerNames labels).contains "marker-update" then some .update
  else if (lowerNames labels).contains "marker-delete" then some .del
  else none

/-- `getField(parsed, key)` = `parsed[key]?.value`. -/
def getField (parsed : Parsed) (key : String) : Option String :=
  (lookupKey parsed key).map Field.value

/-- `parsed[key]?.checked` with JS truthiness (absent field = false). -/
def checkedOf (parsed : Parsed) (key : String) : Bool :=
  match lookupKey parsed key with
  | some f => f.checked
  | none => false

/-- `cleanOptional(getField(parsed,'marker_id')) || cleanOptional(getField(parsed,'id'))`. -/
def markerIdInput (parsed : Parsed) : Option String :=
  match cleanOptional (getField parsed "marker_id") with
  | some v => some v
  | none => cleanOptional (getField parsed "id")

/-- The latitude input: field `latitude`, falling back to `lat`. -/
def latInput (parsed : Parsed) : Option String :=
  match cleanOptional (getField parsed "latitude") with
  | some v => some v
  | none => cleanOptional (getField parsed "lat")

/-- The longitude input: field `longitude`, falling back to `lng`. -/
def lngInput (parsed : Parsed) : Option String :=
  match cleanOptional (getField parsed "longitude") with
  | some v => some v
  | none => cleanOptional (getField parsed "lng")

/-- The shared `try { lat = parseNumber(...); lng = parseNumber(...);
validateCoordinateRange(lat, lng) }` block of the add and update paths. -/
def parseCoords (env : Env) (parsed : Parsed) : Except String (Option ℚ × Option ℚ) :=
  match parseNumber env.jsNum (latInput parsed) "Latitude" with
  | .error e => .error e
  | .ok lat =>
    match parseNumber env.jsNum (lngInput parsed) "Longitude" with
    | .error e => .error e
    | .ok lng =>
      match validateCoordinateRange lat lng with
      | .error e => .error e
      | .ok _ => .ok (lat, lng)

/-- `target.geometry?.coordinates?.[0]` (undefined when the geometry, the
index, or the entry itself is missing). -/
def currentLng (f : Feature) : Option ℚ :=
  f.geometry.bind fun ge => (ge.coordinates[0]?).join

/-- `target.geometry?.coordinates?.[1]`. -/
def currentLat (f : Feature) : Option ℚ :=
  f.geometry.bind fun ge => (ge.coordinates[1]?).join

/-- Present request value overwrites, absent request value keeps the
prior one (`if (x !== undefined) props.x = x`). -/
def pick (n o : Option String) : Option String :=
  match n with
  | some v => some v
  | none => o

/-- The focus flag of the update path (line 147). -/
def focusFlag (parsed : Parsed) : Bool :=
  checkedOf parsed "optional_map_behavior" ||
  checkedOf parsed "recenter_map_to_this_marker_on_load_sets_properties_focus_on_load_true"

/-- Lines 159–164: overwrite the supplied optional fields, set
`focus_on_load` only when the flag is checked. -/
def updatedProps (parsed : Parsed) (focus : Bool) (props0 : FProps) : FProps :=
  { props0 with
    title := pick (cleanOptional (getField parsed "title")) props0.title
    description := pick (cleanOptional (getField parsed "description")) props0.description
    link := pick (cleanOptional (getField parsed "link")) props0.link
    category := pick (cleanOptional (getField parsed "category")) props0.category
    icon := pick (cleanOptional (getField parsed "icon")) props0.icon
    focus_on_load := if focus then some true else props0.focus_on_load }

/-- Replace the first element satisfying `p` (the one `find?` returns and
the JS code mutates in place). -/
def updateFirst (l : List Feature) (p : Feature → Bool) (upd : Feature → Feature) :
    List Feature :=
  match l with
  | [] => []
  | x :: rest => if p x then upd x :: rest else x :: updateFirst rest p upd

/-- The resolved id of an add request: the explicit id, else the
generated one (line 104). -/
def resolvedAddId (env : Env) (parsed : Parsed) : String :=
  match markerIdInput parsed with
  | some v => v
  | none => env.genId

/-- The feature built by a successful add (lines 110–127): optional
properties whose cleaned value is absent are deleted, i.e. omitted. -/
def addFeature (env : Env) (parsed : Parsed) (title : String) (latV lngV : ℚ)
    (id : String) : Feature :=
  { ftype := "Feature"
    properties :=
      { id := some id
        title := some title
        description := cleanOptional (getField parsed "description")
        link := cleanOptional (getField parsed "link")
        category := cleanOptional (getField parsed "category")
        icon := cleanOptional (getField parsed "icon")
        updated_at := some env.now
        focus_on_load := none }
    geometry := some { gtype := "Point", coordinates := [some lngV, some latV] } }

/-! ## The three operation paths -/

/-- The add path (lines 80–132). -/
def applyAdd (env : Env) (parsed : Parsed) (g : GeoJSON) : MStatus × GeoJSON :=
  match cleanOptional (getField parsed "title") with
  | none => (fail "Title is required for Add Marker issues.", g)
  | some title =>
    match parseCoords env parsed with
    | .error e => (fail e, g)
    | .ok (some latV, some lngV) =>
      if g.features.any
          (fun f => decide (f.properties.id = some (resolvedAddId env parsed))) then
        (fail ("A marker with id \"" ++ resolvedAddId env parsed ++ "\" already exists."), g)
      else
        (success ("Added marker \"" ++ resolvedAddId env parsed ++ "\"."),
         ⟨stableSortFeatures
           (g.features ++
             [addFeature env parsed title latV lngV (resolvedAddId env parsed)])⟩)
    | .ok _ => (fail "Latitude and longitude are required for Add Marker issues.", g)

/-- `lng !== undefined ? lng : target.geometry?.coordinates?.[0]`. -/
def nextLngOf (lng : Option ℚ) (target : Feature) : Option ℚ :=
  match lng with
  | some q => some q
  | none => currentLng target

/-- `lat !== undefined ? lat : target.geometry?.coordinates?.[1]`. -/
def nextLatOf (lat : Option ℚ) (target : Feature) : Option ℚ :=
  match lat with
  | some q => some q
  | none => currentLat target

/-- The update path (lines 134–178).  The second
`validateCoordinateRange` call (line 171) sits outside the `try` block:
its error is a thrown exception, observed after the optional-field
overwrites (which mutate `target.properties` in place) but before the
geometry write and the `updated_at` refresh. -/
def applyUpdate (env : Env) (parsed : Parsed) (g : GeoJSON) : MStatus × GeoJSON :=
  match markerIdInput parsed with
  | none => (fail "Marker ID is required for Update Marker issues.", g)
  | some id =>
    match g.features.find? (fun f => decide (f.properties.id = some id)) with
    | none => (fail ("Marker with id \"" ++ id ++ "\" was not found."), g)
    | some target =>
      match parseCoords env parsed with
      | .error e => (fail e, g)
      | .ok (lat, lng) =>
        if lat.isSome || lng.isSome then
          match validateCoordinateRange (nextLatOf lat target) (nextLngOf lng target) with
          | .error e =>
            (MStatus.thrown e,
             ⟨updateFirst g.features (fun f => decide (f.properties.id = some id))
               (fun _ =>
                 { target with
                   properties := updatedProps parsed (focusFlag parsed) target.properties })⟩)
          | .ok _ =>
            (success ("Updated marker \"" ++ id ++ "\"."),
             ⟨updateFirst g.features (fun f => decide (f.properties.id = some id))
               (fun _ =>
                 { target with
                   properties :=
                     { updatedProps parsed (focusFlag parsed) target.properties with
                       updated_at := some env.now }
                   geometry := some { gtype := "Point"
                                      coordinates := [nextLngOf lng target, nextLatOf lat target] } })⟩)
        else
          (success ("Updated marker \"" ++ id ++ "\"."),
           ⟨updateFirst g.features (fun f => decide (f.properties.id = some id))
             (fun _ =>
               { target with
                 properties :=
                   { updatedProps parsed (focusFlag parsed) target.properties with
                     updated_at := some env.now } })⟩)

/-- Case-insensitive `/understand/i` test. -/
def understandTest (s : String) : Bool :=
  containsSub (toLowerStr s).data "understand".data

/-- The delete confirmation test (lines 183–186): a checked
`confirmation` or `confirm_delete` checkbox, or an `understand` phrase in
the cleaned textual `confirmation` field. -/
def deleteConfirm (parsed : Parsed) : Bool :=
  checkedOf parsed "confirmation" ||
  checkedOf parsed "confirm_delete" ||
  understandTest (match cleanOptional (getField parsed "confirmation") with
    | some v => v
    | none => "")

/-- The delete path (lines 180–199). -/
def applyDelete (parsed : Parsed) (g : GeoJSON) : MStatus × GeoJSON :=
  match markerIdInput parsed with
  | none => (fail "Marker ID is required for Delete Marker issues.", g)
  | some id =>
    if !deleteConfirm parsed then
      (fail "Delete confirmation checkbox must be checked.", g)
    else
      if (g.features.filter (fun f => !(decide (f.properties.id = some id)))).length =
          g.features.length then
        (fail ("Marker with id \"" ++ id ++ "\" was not found."),
         ⟨g.features.filter (fun f => !(decide (f.properties.id = some id)))⟩)
      else
        (success ("Deleted marker \"" ++ id ++ "\"."),
         ⟨stableSortFeatures (g.features.filter (fun f => !(decide (f.properties.id = some id))))⟩)

/-- `applyMutation(issue, geojson)`: parse the body, classify by labels,
dispatch.  The returned collection is the state of the (in JS, in-place
mutated) collection at the moment of return or throw. -/
def applyMutation (env : Env) (issue : Issue) (g : GeoJSON) : MStatus × GeoJSON :=
  match parseIssueType issue.labels with
  | none =>
    (fail "Issue is missing one of marker-add, marker-update, or marker-delete labels.", g)
  | some .add => applyAdd env (parseIssueFormBody issue.body) g
  | some .update => applyUpdate env (parseIssueFormBody issue.body) g
  | some .del => applyDelete (parseIssueFormBody issue.body) g

/-! ## Schema validator (`tools/validate_geojson.js`)

The validator receives an arbitrary `JSON.parse` result, so it is
modelled over a JSON value type.  (`JSON.parse` output contains no
`NaN`/`Infinity` and no `undefined` members, so finite rationals and
absent object keys cover its whole domain.)  The WHATWG-`URL`-based
`isValidUrl` and `Date.parse` are abstracted as boolean predicates
`urlOk`/`dateOk`; all theorems hold for every choice of these. -/

inductive JVal where
  | null
  | bool (b : Bool)
  | num (q : ℚ)
  | str (s : String)
  | arr (l : List JVal)
  | obj (l : List (String × JVal))

/-- JS truthiness on JSON values. -/
def truthy : JVal → Bool
  | .null => false
  | .bool b => b
  | .num q => decide (q ≠ 0)
  | .str s => decide (s ≠ "")
  | .arr _ => true
  | .obj _ => true

def lookupStr : List (String × JVal) → String → Option JVal
  | [], _ => none
  | (k0, v) :: rest, k => if k0 = k then some v else lookupStr rest k

/-- JS property access `v.k` (undefined on non-objects; JSON arrays and
primitives have none of the accessed properties). -/
def getProp : JVal → String → Option JVal
  | .obj l, k => lookupStr l k
  | _, _ => none

/-- `(feature.properties || {}).k`: property lookup through the
`properties` member; a falsy or non-object `properties` yields
`undefined` for every key. -/
def propGet (f : JVal) (k : String) : Option JVal :=
  match getProp f "properties" with
  | some (.obj pl) => lookupStr pl k
  | _ => none

/-- Strict equality of an accessed property with a string literal
(`v.k === 'lit'`). -/
def strIs (v : Option JVal) (lit : String) : Bool :=
  match v with
  | some (.str s) => s = lit
  | _ => false

def idMsg (pfx : String) : String := pfx ++ ": properties.id is required and must be a string."

def dupMsg (pfx s : String) : String := pfx ++ ": duplicate id \"" ++ s ++ "\"."

def titleMsg (pfx : String) : String := pfx ++ ": properties.title is required and must be a string."

def linkMsg (pfx : String) : String := pfx ++ ": properties.link must be a valid http/https URL if provided."

def iconMsg (pfx : String) : String := pfx ++ ": properties.icon must be \"default\" or a valid URL."

def updatedMsg (pfx : String) : String := pfx ++ ": properties.updated_at must be an ISO datetime string."

def geoMsg (pfx : String) : String := pfx ++ ": geometry must be Point with [lng, lat] coordinates."

def latMsg (pfx : String) : String := pfx ++ ": latitude must be a number in [-90, 90]."

def lngMsg (pfx : String) : String := pfx ++ ": longitude must be a number in [-180, 180]."

def rootMsg : String := "Root object must be a GeoJSON FeatureCollection with a features array."

/-- The id check (lines 33–39): an error for anything but a non-empty
string; a fresh valid id is recorded in the seen set even when other
checks on the feature fail. -/
def idPart (pfx : String) (ids : List String) (f : JVal) : List String × List String :=
  match propGet f "id" with
  | some (.str s) =>
    if s = "" then ([idMsg pfx], ids)
    else if ids.contains s then ([dupMsg pfx s], ids)
    else ([], ids ++ [s])
  | _ => ([idMsg pfx], ids)

/-- The title check (lines 41–43). -/
def titlePart (pfx : String) (f : JVal) : List String :=
  match propGet f "title" with
  | some (.str s) => if s = "" then [titleMsg pfx] else []
  | some _ => [titleMsg pfx]
  | none => [titleMsg pfx]

/-- The link check (lines 45–47): only a truthy link is checked. -/
def linkPart (urlOk : JVal → Bool) (pfx : String) (f : JVal) : List String :=
  match propGet f "link" with
  | some v => if truthy v && !(urlOk v) then [linkMsg pfx] else []
  | none => []

/-- The icon check (lines 49–51). -/
def iconPart (urlOk : JVal → Bool) (pfx : String) (f : JVal) : List String :=
  match propGet f "icon" with
  | some v => if truthy v && !(strIs (some v) "default") && !(urlOk v) then [iconMsg pfx] else []
  | none => []

/-- The updated_at check (lines 53–55). -/
def updatedPart (dateOk : JVal → Bool) (pfx : String) (f : JVal) : List String :=
  match propGet f "updated_at" with
  | some v => if truthy v && dateOk v then [] else [updatedMsg pfx]
  | none => [updatedMsg pfx]

/-- The coordinate range checks (lines 62–68). -/
def rangePart (pfx : String) (lngV latV : JVal) : List String :=
  (match latV with
   | .num q => if q < -90 ∨ q > 90 then [latMsg pfx] else []
   | _ => [latMsg pfx]) ++
  (match lngV with
   | .num q => if q < -180 ∨ q > 180 then [lngMsg pfx] else []
   | _ => [lngMsg pfx])

/-- The geometry check (lines 57–68): structure first, ranges only when
the structure is a Point with a two-element coordinates array. -/
def geomPart (pfx : String) (f : JVal) : List String :=
  match getProp f "geometry" with
  | some gv =>
    if strIs (getProp gv "type") "Point" then
      match getProp gv "coordinates" with
      | some (.arr [lngV, latV]) => rangePart pfx lngV latV
      | _ => [geoMsg pfx]
    else [geoMsg pfx]
  | none => [geoMsg pfx]

/-- `feature[i]`, the per-feature message prefix. -/
def featPfx (idx : Nat) : String := "feature[" ++ toString idx ++ "]"

/-- One iteration of the `forEach` body (lines 23–69). -/
def validateFeature (urlOk dateOk : JVal → Bool) (idx : Nat) (ids : List String)
    (f : JVal) : List String × List String :=
  if strIs (getProp f "type") "Feature" then
    ((idPart (featPfx idx) ids f).1 ++ titlePart (featPfx idx) f ++
       linkPart urlOk (featPfx idx) f ++ iconPart urlOk (featPfx idx) f ++
       updatedPart dateOk (featPfx idx) f ++ geomPart (featPfx idx) f,
     (idPart (featPfx idx) ids f).2)
  else ([featPfx idx ++ ": must be type \"Feature\"."], ids)

def validateFeatures (urlOk dateOk : JVal → Bool) :
    List JVal → Nat → List String → List String
  | [], _, _ => []
  | f :: rest, idx, ids =>
    (validateFeature urlOk dateOk idx ids f).1 ++
      validateFeatures urlOk dateOk rest (idx + 1) (validateFeature urlOk dateOk idx ids f).2

/-- `validateGeoJSON` of `tools/validate_geojson.js`. -/
def validateGeoJSON (urlOk dateOk : JVal → Bool) (data : JVal) : List String :=
  if strIs (getProp data "type") "FeatureCollection" then
    match getProp data "features" with
    | some (.arr fs) => validateFeatures urlOk dateOk fs 0 []
    | _ => [rootMsg]
  else [rootMsg]

/-! ### Spec-side restatement of the §4.2 rules (for the round-trip
claim).  These definitions follow the wording of the spec, one boolean
per rule; "present" for the optional `link`/`icon`/`updated_at` fields
is read as JS-truthy, the convention this system uses for optional
values throughout. -/

/-- Rule 3 (id present, a non-empty string); returns the id for the
uniqueness rule. -/
def specIdOf (f : JVal) : Option String :=
  match propGet f "id" with
  | some (.str s) => if s = "" then none else some s
  | _ => none

/-- Rule 2: the entry is tagged as a feature. -/
def ruleFeatureTag (f : JVal) : Bool :=
  strIs (getProp f "type") "Feature"

/-- Rule 4: `title` required, a non-empty string. -/
def ruleTitle (f : JVal) : Bool :=
  match propGet f "title" with
  | some (.str s) => decide (s ≠ "")
  | _ => false

/-- Rule 5: `link`, if present, a syntactically valid absolute
http/https URL. -/
def ruleLink (urlOk : JVal → Bool) (f : JVal) : Bool :=
  match propGet f "link" with
  | some v => !truthy v || urlOk v
  | none => true

/-- Rule 6: `icon`, if present, equals `default` or is a valid URL. -/
def ruleIcon (urlOk : JVal → Bool) (f : JVal) : Bool :=
  match propGet f "icon" with
  | some v => !truthy v || strIs (some v) "default" || urlOk v
  | none => true

/-- Rule 7: `updated_at` required and parseable as a date-time. -/
def ruleUpdated (dateOk : JVal → Bool) (f : JVal) : Bool :=
  match propGet f "updated_at" with
  | some v => truthy v && dateOk v
  | none => false

/-- Rules 8–9: geometry tagged Point with exactly two numeric
coordinates, the second (latitude) in [-90, 90] and the first
(longitude) in [-180, 180]. -/
def ruleGeometry (f : JVal) : Bool :=
  match getProp f "geometry" with
  | some gv =>
    strIs (getProp gv "type") "Point" &&
    (match getProp gv "coordinates" with
     | some (.arr [lngV, latV]) =>
       (match latV with
        | .num q => decide (-90 ≤ q ∧ q ≤ 90)
        | _ => false) &&
       (match lngV with
        | .num q => decide (-180 ≤ q ∧ q ≤ 180)
        | _ => false)
     | _ => false)
  | none => false

/-- Rules 2 and 4–9 for one feature (everything except cross-feature id
uniqueness). -/
def specFeatureOk (urlOk dateOk : JVal → Bool) (f : JVal) : Bool :=
  ruleFeatureTag f && (specIdOf f).isSome && ruleTitle f && ruleLink urlOk f &&
  ruleIcon urlOk f && ruleUpdated dateOk f && ruleGeometry f

/-- The full §4.2 contract on a candidate value: a feature-collection
root whose every entry passes the per-feature rules and whose ids are
pairwise distinct. -/
def specValid (urlOk dateOk : JVal → Bool) (data : JVal) : Bool :=
  strIs (getProp data "type") "FeatureCollection" &&
  (match getProp data "features" with
   | some (.arr fs) =>
     fs.all (specFeatureOk urlOk dateOk) && decide (fs.filterMap specIdOf).Nodup
   | _ => false)

/-! ## Derived notions used in theorem statements -/

/-- The list of ids of the features of a collection (features without an
id contribute nothing). -/
def idsOf (g : GeoJSON) : List String :=
  g.features.filterMap fun f => f.properties.id

/-- Adjacent-pairs sortedness of a key list (lexicographic `≤`). -/
def sortedKeys : List String → Bool
  | [] => true
  | [_] => true
  | a :: b :: rest => strLe a b && sortedKeys (b :: rest)

/-- The collection is sorted by feature id. -/
def sortedById (g : GeoJSON) : Bool :=
  sortedKeys (g.features.map featKey)

/-- Every feature's stored coordinate pair is within the valid ranges
(vacuously for missing axes). -/
def storedCoordsInRange (g : GeoJSON) : Prop :=
  ∀ f ∈ g.features, latBad (currentLat f) = false ∧ lngBad (currentLng f) = false

/-! ## Helper lemmas -/

theorem lexLt_asymm : ∀ {l1 l2 : List Char}, lexLt l1 l2 = true → lexLt l2 l1 = false := by
  intro l1
  induction l1 with
  | nil =>
    intro l2 h
    cases l2 with
    | nil => exact absurd h (by simp [lexLt])
    | cons b bs => rfl
  | cons a as ih =>
    intro l2 h
    cases l2 with
    | nil => exact absurd h (by simp [lexLt])
    | cons b bs =>
      simp only [lexLt] at h ⊢
      by_cases hab : a < b
      · rw [if_neg (lt_asymm hab), if_pos hab]
      · rw [if_neg hab] at h
        by_cases hba : b < a
        · rw [if_pos hba] at h
          cases h
        · rw [if_neg hba] at h ⊢
          rw [if_neg hab]
          exact ih h

theorem lexLt_trans : ∀ {l1 l2 l3 : List Char},
    lexLt l1 l2 = true → lexLt l2 l3 = true → lexLt l1 l3 = true := by
  intro l1
  induction l1 with
  | nil =>
    intro l2 l3 h12 h23
    cases l3 with
    | nil =>
      cases l2 with
      | nil => exact h12
      | cons b bs => exact absurd h23 (by simp [lexLt])
    | cons c cs => rfl
  | cons a as ih =>
    intro l2 l3 h12 h23
    cases l2 with
    | nil => exact absurd h12 (by simp [lexLt])
    | cons b bs =>
      cases l3 with
      | nil => exact absurd h23 (by simp [lexLt])
      | cons c cs =>
        simp only [lexLt] at h12 h23 ⊢
        by_cases hab : a < b
        · by_cases hbc : b < c
          · rw [if_pos (lt_trans hab hbc)]
          · rw [if_neg hbc] at h23
            by_cases hcb : c < b
            · rw [if_pos hcb] at h23
              cases h23
            · have hbc' : b = c := le_antisymm (le_of_not_lt hcb) (le_of_not_lt hbc)
              rw [if_pos (hbc' ▸ hab)]
        · rw [if_neg hab] at h12
          by_cases hba : b < a
          · rw [if_pos hba] at h12
            cases h12
          · have hab' : a = b := le_antisymm (le_of_not_lt hba) (le_of_not_lt hab)
            subst hab'
            rw [if_neg (lt_irrefl a)] at h12
            by_cases hac : a < c
            · rw [if_pos hac]
            · rw [if_neg hac] at h23 ⊢
              by_cases hca : c < a
              · rw [if_pos hca] at h23
                cases h23
              · rw [if_neg hca] at h23 ⊢
                exact ih h12 h23

theorem strOrd_total (a b : String) : strOrd a b ∨ strOrd b a := by
  unfold strOrd strLe
  by_cases h : lexLt b.data a.data = true
  · right
    rw [lexLt_asymm h]
    rfl
  · left
    rw [Bool.not_eq_true] at h
    rw [h]
    rfl

theorem lexLt_eq_of_not : ∀ {l1 l2 : List Char},
    lexLt l1 l2 = false → lexLt l2 l1 = false → l1 = l2 := by
  intro l1
  induction l1 with
  | nil =>
    intro l2 h1 h2
    cases l2 with
    | nil => rfl
    | cons b bs => exact absurd h1 (by simp [lexLt])
  | cons a as ih =>
    intro l2 h1 h2
    cases l2 with
    | nil => exact absurd h2 (by simp [lexLt])
    | cons b bs =>
      simp only [lexLt] at h1 h2
      by_cases hab : a < b
      · rw [if_pos hab] at h1
        cases h1
      · rw [if_neg hab] at h1
        by_cases hba : b < a
        · rw [if_pos hba] at h2
          cases h2
        · rw [if_neg hba] at h1
          rw [if_neg hba, if_neg hab] at h2
          have hab' : a = b := le_antisymm (le_of_not_lt hba) (le_of_not_lt hab)
          rw [hab', ih h1 h2]

theorem strOrd_trans {a b c : String} (h1 : strOrd a b) (h2 : strOrd b c) : strOrd a c := by
  unfold strOrd strLe at h1 h2 ⊢
  rw [Bool.not_eq_true'] at h1 h2 ⊢
  by_cases hca : lexLt c.data a.data = true
  · exfalso
    by_cases hbc : lexLt b.data c.data = true
    · rw [lexLt_trans hbc hca] at h1
      cases h1
    · rw [Bool.not_eq_true] at hbc
      have hbceq : b.data = c.data := lexLt_eq_of_not hbc h2
      rw [hbceq, hca] at h1
      cases h1
  · rw [Bool.not_eq_true] at hca
    exact hca

instance : IsTotal Feature featOrd :=
  ⟨fun a b => strOrd_total (featKey a) (featKey b)⟩

instance : IsTrans Feature featOrd :=
  ⟨fun _ _ _ hab hbc => strOrd_trans hab hbc⟩

theorem sortedKeys_of_sorted : ∀ {l : List String}, l.Sorted strOrd → sortedKeys l = true := by
  intro l h
  induction l with
  | nil => rfl
  | cons a rest ih =>
    cases rest with
    | nil => rfl
    | cons b rest2 =>
      rw [List.sorted_cons] at h
      simp only [sortedKeys, Bool.and_eq_true]
      exact ⟨h.1 b (by simp), ih h.2⟩

theorem stableSortFeatures_perm (l : List Feature) : List.Perm (stableSortFeatures l) l :=
  List.perm_insertionSort featOrd l

theorem sortedKeys_stableSortFeatures (l : List Feature) :
    sortedKeys ((stableSortFeatures l).map featKey) = true := by
  apply sortedKeys_of_sorted
  have h := List.sorted_insertionSort featOrd l
  rw [List.Sorted, List.pairwise_map]
  exact h

theorem validateCoordinateRange_ok_iff {lat lng : Option ℚ} :
    validateCoordinateRange lat lng = .ok () ↔ latBad lat = false ∧ lngBad lng = false := by
  unfold validateCoordinateRange
  cases h1 : latBad lat <;> cases h2 : lngBad lng <;> simp

theorem parseCoords_ok_valid {env : Env} {parsed : Parsed} {lat lng : Option ℚ}
    (h : parseCoords env parsed = .ok (lat, lng)) :
    validateCoordinateRange lat lng = .ok () := by
  unfold parseCoords at h
  split at h
  · exact absurd h (by simp)
  · split at h
    · exact absurd h (by simp)
    · split at h
      · exact absurd h (by simp)
      · rename_i lat0 _ lng0 _ u heq
        cases h
        cases u
        exact heq

theorem updateFirst_map_featKey {l : List Feature} {p : Feature → Bool}
    {upd : Feature → Feature} (h : ∀ x, p x = true → featKey (upd x) = featKey x) :
    (updateFirst l p upd).map featKey = l.map featKey := by
  induction l with
  | nil => rfl
  | cons x rest ih =>
    unfold updateFirst
    cases hx : p x with
    | true =>
      rw [if_pos rfl]
      simp [h x hx]
    | false =>
      rw [if_neg (by simp)]
      simp [ih]

theorem find?_updateFirst {l : List Feature} {p : Feature → Bool} {upd : Feature → Feature}
    (h : ∀ x, p x = true → p (upd x) = true) :
    (updateFirst l p upd).find? p = (l.find? p).map upd := by
  induction l with
  | nil => rfl
  | cons x rest ih =>
    unfold updateFirst
    cases hx : p x with
    | true =>
      rw [if_pos rfl]
      rw [List.find?_cons_of_pos _ (h x hx), List.find?_cons_of_pos _ hx]
      rfl
    | false =>
      rw [if_neg (by simp), List.find?_cons_of_neg _ (by simp [hx]),
        List.find?_cons_of_neg _ (by simp [hx])]
      exact ih

theorem applyAdd_not_thrown (env : Env) (parsed : Parsed) (g : GeoJSON) :
    (applyAdd env parsed g).1.isThrown = false := by
  unfold applyAdd
  split
  · rfl
  · split
    · rfl
    · split
      · rfl
      · rfl
    · rfl

theorem applyDelete_not_thrown (parsed : Parsed) (g : GeoJSON) :
    (applyDelete parsed g).1.isThrown = false := by
  unfold applyDelete
  split
  · rfl
  · split
    · rfl
    · split
      · rfl
      · rfl

/-- Every add failure path leaves the collection untouched and produces
a returned `ok:false` outcome; every success has the pushed-and-sorted
shape with the resolved id not previously present. -/
theorem applyAdd_cases (env : Env) (parsed : Parsed) (g : GeoJSON) :
    (∃ m, applyAdd env parsed g = (MStatus.outcome false m, g)) ∨
    (∃ title latV lngV,
      cleanOptional (getField parsed "title") = some title ∧
      parseCoords env parsed = .ok (some latV, some lngV) ∧
      g.features.any
        (fun f => decide (f.properties.id = some (resolvedAddId env parsed))) = false ∧
      applyAdd env parsed g =
        (success ("Added marker \"" ++ resolvedAddId env parsed ++ "\"."),
         ⟨stableSortFeatures
           (g.features ++
             [addFeature env parsed title latV lngV (resolvedAddId env parsed)])⟩)) := by
  unfold applyAdd
  split
  · exact Or.inl ⟨_, rfl⟩
  · rename_i title htitle
    split
    · exact Or.inl ⟨_, rfl⟩
    · rename_i latV lngV hco
      split
      · exact Or.inl ⟨_, rfl⟩
      · rename_i hany
        refine Or.inr ⟨title, latV, lngV, htitle, hco, ?_, rfl⟩
        simpa using hany
    · exact Or.inl ⟨_, rfl⟩

/-- Every update success has the replace-first shape: the target found
by id, its optional fields overwritten-or-kept, `updated_at` refreshed,
and some geometry (the new pair when a coordinate was supplied, the old
one otherwise). -/
theorem applyUpdate_success_shape (env : Env) (parsed : Parsed) (g : GeoJSON)
    (hok : (applyUpdate env parsed g).1.isOk = true) :
    ∃ id target geom,
      markerIdInput parsed = some id ∧
      g.features.find? (fun f => decide (f.properties.id = some id)) = some target ∧
      applyUpdate env parsed g =
        (success ("Updated marker \"" ++ id ++ "\"."),
         ⟨updateFirst g.features (fun f => decide (f.properties.id = some id))
           (fun _ =>
             { target with
               properties :=
                 { updatedProps parsed (focusFlag parsed) target.properties with
                   updated_at := some env.now }
               geometry := geom })⟩) := by
  unfold applyUpdate at hok ⊢
  split at hok
  · exact absurd hok (by simp [fail, MStatus.isOk])
  · rename_i id hid
    split at hok
    · exact absurd hok (by simp [fail, MStatus.isOk])
    · rename_i target hfind
      split at hok
      · exact absurd hok (by simp [fail, MStatus.isOk])
      · rename_i lat lng hco
        split at hok
        · rename_i hsome
          split at hok
          · exact absurd hok (by simp [MStatus.isOk])
          · rename_i u hv
            cases u
            exact ⟨id, target,
              some { gtype := "Point"
                     coordinates := [nextLngOf lng target, nextLatOf lat target] },
              hid, hfind, by rw [if_pos hsome]⟩
        · rename_i hnone
          exact ⟨id, target, target.geometry, hid, hfind, by rw [if_neg hnone]⟩

/-- `updateFirst` rewrites exactly the element `find?` returns: the list
splits around the first match. -/
theorem updateFirst_decomp {l : List Feature} {p : Feature → Bool} {t : Feature}
    (upd : Feature → Feature) (h : l.find? p = some t) :
    ∃ l1 l2, l = l1 ++ t :: l2 ∧ updateFirst l p upd = l1 ++ upd t :: l2 ∧
      p t = true := by
  induction l with
  | nil => cases h
  | cons x rest ih =>
    cases hx : p x with
    | true =>
      rw [List.find?_cons_of_pos _ hx] at h
      cases h
      refine ⟨[], rest, rfl, ?_, hx⟩
      unfold updateFirst
      rw [if_pos hx]
      rfl
    | false =>
      rw [List.find?_cons_of_neg _ (by simp [hx])] at h
      obtain ⟨l1, l2, he, hu, hp⟩ := ih h
      refine ⟨x :: l1, l2, by rw [he]; rfl, ?_, hp⟩
      unfold updateFirst
      rw [if_neg (by simp [hx]), hu]
      rfl

/-- Every update path that is not a success leaves every feature's
geometry untouched (the thrown path writes back the field overwrites but
not the geometry; the returned failures change nothing). -/
theorem applyUpdate_not_ok_geometry (env : Env) (parsed : Parsed) (g : GeoJSON)
    (hnok : (applyUpdate env parsed g).1.isOk = false) :
    (applyUpdate env parsed g).2.features.map Feature.geometry =
      g.features.map Feature.geometry := by
  unfold applyUpdate at hnok ⊢
  split at hnok
  · rfl
  · rename_i id hid
    split at hnok
    · rfl
    · rename_i target hfind
      split at hnok
      · rfl
      · rename_i lat lng hco
        split at hnok
        · rename_i hsome
          split at hnok
          · rename_i e hv
            simp only
            obtain ⟨l1, l2, he, hu, -⟩ :=
              updateFirst_decomp
                (fun _ =>
                  { target with
                    properties := updatedProps parsed (focusFlag parsed) target.properties })
                hfind
            rw [hu, he]
            rw [if_pos hsome]
            simp
          · exact absurd hnok (by simp [success, MStatus.isOk])
        · exact absurd hnok (by simp [success, MStatus.isOk])

/-- Every delete success sorts the filtered remainder. -/
theorem applyDelete_success_shape (parsed : Parsed) (g : GeoJSON)
    (hok : (applyDelete parsed g).1.isOk = true) :
    ∃ id, markerIdInput parsed = some id ∧
      applyDelete parsed g =
        (success ("Deleted marker \"" ++ id ++ "\"."),
         ⟨stableSortFeatures
           (g.features.filter (fun f => !(decide (f.properties.id = some id))))⟩) := by
  unfold applyDelete at hok ⊢
  split at hok
  · exact absurd hok (by simp [fail, MStatus.isOk])
  · rename_i id hid
    split at hok
    · exact absurd hok (by simp [fail, MStatus.isOk])
    · rename_i h1
      split at hok
      · exact absurd hok (by simp [fail, MStatus.isOk])
      · rename_i h2
        exact ⟨id, hid, by rw [if_neg h1, if_neg h2]⟩

/-- The update path can only throw when the stored coordinates of the
target are out of range: with the ranges intact it always returns an
outcome. -/
theorem applyUpdate_not_thrown_of_range (env : Env) (parsed : Parsed) (g : GeoJSON)
    (hrange : storedCoordsInRange g) :
    (applyUpdate env parsed g).1.isThrown = false := by
  unfold applyUpdate
  split
  · rfl
  · rename_i id hid
    split
    · rfl
    · rename_i target hfind
      split
      · rfl
      · rename_i lat lng hco
        split
        · rename_i hsome
          split
          · rename_i e hv
            exfalso
            have hok := parseCoords_ok_valid hco
            rw [validateCoordinateRange_ok_iff] at hok
            have hmem := List.mem_of_find?_eq_some hfind
            obtain ⟨hlat0, hlng0⟩ := hrange target hmem
            have hnl : latBad (nextLatOf lat target) = false := by
              unfold nextLatOf
              cases lat with
              | some q => exact hok.1
              | none => exact hlat0
            have hng : lngBad (nextLngOf lng target) = false := by
              unfold nextLngOf
              cases lng with
              | some q => exact hok.2
              | none => exact hlng0
            rw [validateCoordinateRange_ok_iff.mpr ⟨hnl, hng⟩] at hv
            cases hv
          · rfl
        · rfl

/-! ## Fixtures for witnesses and counterexamples -/

/-- A concrete environment: a fixed timestamp and generated id, and a
`Number(...)` table covering the inputs the concrete requests use. -/
def wEnv : Env :=
  { now := "2024-01-02T03:04:05.000Z"
    genId := "m-20240102-77"
    jsNum := fun s =>
      if s = "10" then some 10
      else if s = "5" then some 5
      else if s = "100" then some 100
      else if s = "37.1" then some (371 / 10)
      else if s = "-122.2" then some (-1222 / 10)
      else none }

def featA : Feature :=
  { ftype := "Feature"
    properties := { id := some "a", title := some "A", updated_at := some "t0" }
    geometry := some { gtype := "Point", coordinates := [some 5, some 1] } }

def featB : Feature :=
  { ftype := "Feature"
    properties := { id := some "b", title := some "B", updated_at := some "t0" }
    geometry := some { gtype := "Point", coordinates := [some 6, some 2] } }

/-- A feature whose stored longitude (200) is out of range. -/
def featBadLng : Feature :=
  { ftype := "Feature"
    properties := { id := some "x", title := some "X", updated_at := some "t0" }
    geometry := some { gtype := "Point", coordinates := [some 200, some 0] } }

/-! ## C9 -/

/-- C9: every request is classified into exactly one of add, update,
delete, or unrecognized from the label set, case-insensitively, with the
first match taken in the fixed priority order add, update, delete; a
request with none of the three labels gets a failure outcome and the
collection is untouched. -/
theorem C9_classification_priority (env : Env) (issue : Issue) (g : GeoJSON) :
    ((lowerNames issue.labels).contains "marker-add" = true →
      parseIssueType issue.labels = some IssueType.add) ∧
    ((lowerNames issue.labels).contains "marker-add" = false →
      (lowerNames issue.labels).contains "marker-update" = true →
      parseIssueType issue.labels = some IssueType.update) ∧
    ((lowerNames issue.labels).contains "marker-add" = false →
      (lowerNames issue.labels).contains "marker-update" = false →
      (lowerNames issue.labels).contains "marker-delete" = true →
      parseIssueType issue.labels = some IssueType.del) ∧
    ((lowerNames issue.labels).contains "marker-add" = false →
      (lowerNames issue.labels).contains "marker-update" = false →
      (lowerNames issue.labels).contains "marker-delete" = false →
      parseIssueType issue.labels = none ∧
      applyMutation env issue g =
        (fail "Issue is missing one of marker-add, marker-update, or marker-delete labels.",
         g)) := by
  refine ⟨fun h1 => ?_, fun h1 h2 => ?_, fun h1 h2 h3 => ?_, fun h1 h2 h3 => ?_⟩
  · unfold parseIssueType
    rw [if_pos h1]
  · unfold parseIssueType
    rw [if_neg (by rw [h1]; exact Bool.false_ne_true), if_pos h2]
  · unfold parseIssueType
    rw [if_neg (by rw [h1]; exact Bool.false_ne_true),
      if_neg (by rw [h2]; exact Bool.false_ne_true), if_pos h3]
  · have hnone : parseIssueType issue.labels = none := by
      unfold parseIssueType
      rw [if_neg (by rw [h1]; exact Bool.false_ne_true),
        if_neg (by rw [h2]; exact Bool.false_ne_true),
        if_neg (by rw [h3]; exact Bool.false_ne_true)]
    refine ⟨hnone, ?_⟩
    unfold applyMutation
    rw [hnone]

/-- Witness for C9: a mixed-case `Marker-Add` label beats a
`marker-delete` label, and a label set with none of the three yields the
failure outcome with the collection untouched. -/
theorem C9_classification_priority_witness :
    parseIssueType [⟨"Marker-Add"⟩, ⟨"marker-delete"⟩] = some IssueType.add ∧
    (parseIssueType [⟨"question"⟩] = none ∧
      applyMutation wEnv { body := "", labels := [⟨"question"⟩] } ⟨[featA]⟩ =
        (fail "Issue is missing one of marker-add, marker-update, or marker-delete labels.",
         ⟨[featA]⟩)) :=
  ⟨(C9_classification_priority wEnv
      { body := "", labels := [⟨"Marker-Add"⟩, ⟨"marker-delete"⟩] } ⟨[featA]⟩).1 (by decide),
   (C9_classification_priority wEnv { body := "", labels := [⟨"question"⟩] } ⟨[featA]⟩).2.2.2
     (by decide) (by decide) (by decide)⟩

/-! ## C6 -/

/-- C6: a delete request naming an existing feature id, with no checked
confirmation checkbox (`confirmation` or `confirm_delete`) and no
`understand` phrase in the cleaned textual confirmation field, returns a
failure outcome and leaves the collection (hence the feature) in place. -/
theorem C6_delete_requires_confirmation (env : Env) (issue : Issue) (g : GeoJSON)
    (id : String)
    (hty : parseIssueType issue.labels = some IssueType.del)
    (hid : markerIdInput (parseIssueFormBody issue.body) = some id)
    (hex : ∃ f ∈ g.features, f.properties.id = some id)
    (hc1 : checkedOf (parseIssueFormBody issue.body) "confirmation" = false)
    (hc2 : checkedOf (parseIssueFormBody issue.body) "confirm_delete" = false)
    (hc3 : understandTest
        (match cleanOptional (getField (parseIssueFormBody issue.body) "confirmation") with
          | some v => v
          | none => "") = false) :
    applyMutation env issue g =
      (fail "Delete confirmation checkbox must be checked.", g) ∧
    ∃ f ∈ (applyMutation env issue g).2.features, f.properties.id = some id := by
  have hconf : deleteConfirm (parseIssueFormBody issue.body) = false := by
    unfold deleteConfirm
    rw [hc1, hc2, hc3]
    rfl
  have h1 : applyMutation env issue g =
      (fail "Delete confirmation checkbox must be checked.", g) := by
    unfold applyMutation
    rw [hty]
    unfold applyDelete
    rw [hid, hconf]
    rfl
  exact ⟨h1, by rw [h1]; exact hex⟩

/-- Witness for C6: deleting `a` with an unchecked confirmation box
fails and `a` survives. -/
theorem C6_delete_requires_confirmation_witness :
    applyMutation wEnv
        { body := "### Marker Id\na\n### Confirmation\n- [ ] yes, remove it", labels := [⟨"marker-delete"⟩] }
        ⟨[featA]⟩ =
      (fail "Delete confirmation checkbox must be checked.", ⟨[featA]⟩) ∧
    ∃ f ∈ (applyMutation wEnv
        { body := "### Marker Id\na\n### Confirmation\n- [ ] yes, remove it", labels := [⟨"marker-delete"⟩] }
        ⟨[featA]⟩).2.features, f.properties.id = some "a" :=
  C6_delete_requires_confirmation wEnv
    { body := "### Marker Id\na\n### Confirmation\n- [ ] yes, remove it", labels := [⟨"marker-delete"⟩] }
    ⟨[featA]⟩ "a" (by decide) (by decide) ⟨featA, by decide, by decide⟩
    (by decide) (by decide) (by decide)

/-! ## C4 -/

/-- C4 counterexample: `applyMutation` is not total.  On a collection
whose stored longitude is 200 (out of range), an update supplying only a
latitude reaches the unguarded second `validateCoordinateRange` call and
throws instead of returning an outcome record. -/
theorem C4_counterexample_thrown :
    (applyMutation wEnv { body := "### Marker Id\nx\n### Latitude\n10", labels := [⟨"marker-update"⟩] }
        ⟨[featBadLng]⟩).1 =
      MStatus.thrown "Longitude must be in range -180..180." := by
  decide

/-- C4 (amended): whenever every stored coordinate of the collection is
within range — which the orchestrator's validation gate guarantees for
the persisted dataset — `applyMutation` is total: every operation-level
error is returned as an `ok:false` outcome and nothing is thrown.  (As
stated over arbitrary collections the claim fails, see the
counterexample: the update path's second `validateCoordinateRange` call
sits outside the `try` block.) -/
theorem C4_no_uncaught_exception (env : Env) (issue : Issue) (g : GeoJSON)
    (hrange : storedCoordsInRange g) :
    (applyMutation env issue g).1.isThrown = false := by
  unfold applyMutation
  cases hty : parseIssueType issue.labels with
  | none => rfl
  | some t =>
    cases t with
    | add => exact applyAdd_not_thrown env (parseIssueFormBody issue.body) g
    | update => exact applyUpdate_not_thrown_of_range env (parseIssueFormBody issue.body) g hrange
    | del => exact applyDelete_not_thrown (parseIssueFormBody issue.body) g

/-- Witness for C4: the same update request as the counterexample, but
against a collection with in-range stored coordinates, returns an
outcome (nothing thrown). -/
theorem C4_no_uncaught_exception_witness :
    (applyMutation wEnv { body := "### Marker Id\na\n### Latitude\n10", labels := [⟨"marker-update"⟩] }
        ⟨[featA]⟩).1.isThrown = false :=
  C4_no_uncaught_exception wEnv
    { body := "### Marker Id\na\n### Latitude\n10", labels := [⟨"marker-update"⟩] }
    ⟨[featA]⟩ (by unfold storedCoordsInRange; decide)

/-! ## C1 -/

/-- C1 counterexample: the second half of the claim ("after every
successful add, no two features in the resulting collection share an
id") fails without a precondition on the input: adding a fresh id `b` to
a collection that already contains `a` twice succeeds and the duplicate
survives. -/
theorem C1_counterexample_duplicates_survive :
    (applyMutation wEnv
        { body := "### Title\nT\n### Marker Id\nb\n### Latitude\n10\n### Longitude\n5"
          labels := [⟨"marker-add"⟩] }
        ⟨[featA, featA]⟩).1.isOk = true ∧
    ¬ (idsOf (applyMutation wEnv
        { body := "### Title\nT\n### Marker Id\nb\n### Latitude\n10\n### Longitude\n5"
          labels := [⟨"marker-add"⟩] }
        ⟨[featA, featA]⟩).2).Nodup := by
  exact ⟨by decide, by decide⟩

/-- C1 (amended): for an add request, if the resolved id (explicit or
generated) already equals the id of an existing feature the mutation
returns a failure outcome and the collection is left unchanged; and on a
collection with no duplicate ids (the invariant of the persisted
dataset) a successful add again yields no duplicate ids. -/
theorem C1_add_uniqueness (env : Env) (issue : Issue) (g : GeoJSON)
    (hty : parseIssueType issue.labels = some IssueType.add) :
    ((∃ f ∈ g.features,
        f.properties.id = some (resolvedAddId env (parseIssueFormBody issue.body))) →
      (∃ m, (applyMutation env issue g).1 = MStatus.outcome false m) ∧
      (applyMutation env issue g).2 = g) ∧
    ((idsOf g).Nodup → (applyMutation env issue g).1.isOk = true →
      (idsOf (applyMutation env issue g).2).Nodup) := by
  have hm : applyMutation env issue g = applyAdd env (parseIssueFormBody issue.body) g := by
    unfold applyMutation
    rw [hty]
  rw [hm]
  constructor
  · intro hex
    rcases applyAdd_cases env (parseIssueFormBody issue.body) g with
      ⟨m, hcase⟩ | ⟨t, la, ln, -, -, hany, hcase⟩
    · rw [hcase]
      exact ⟨⟨m, rfl⟩, rfl⟩
    · exfalso
      obtain ⟨f, hf, hfid⟩ := hex
      have htrue : g.features.any
          (fun f => decide (f.properties.id =
            some (resolvedAddId env (parseIssueFormBody issue.body)))) = true :=
        List.any_eq_true.mpr ⟨f, hf, by simp [hfid]⟩
      rw [hany] at htrue
      cases htrue
  · intro hnod hok
    rcases applyAdd_cases env (parseIssueFormBody issue.body) g with
      ⟨m, hcase⟩ | ⟨t, la, ln, -, -, hany, hcase⟩
    · rw [hcase] at hok
      cases hok
    · rw [hcase]
      have hperm : List.Perm
          (stableSortFeatures (g.features ++
            [addFeature env (parseIssueFormBody issue.body) t la ln
              (resolvedAddId env (parseIssueFormBody issue.body))]))
          (g.features ++
            [addFeature env (parseIssueFormBody issue.body) t la ln
              (resolvedAddId env (parseIssueFormBody issue.body))]) :=
        stableSortFeatures_perm _
      have hfp := hperm.filterMap (fun f => f.properties.id)
      unfold idsOf
      simp only
      rw [hfp.nodup_iff]
      rw [List.filterMap_append]
      have hnotin : resolvedAddId env (parseIssueFormBody issue.body) ∉
          g.features.filterMap (fun f => f.properties.id) := by
        intro hmem
        obtain ⟨f, hf, hfid⟩ := List.mem_filterMap.mp hmem
        have htrue : g.features.any
            (fun f => decide (f.properties.id =
              some (resolvedAddId env (parseIssueFormBody issue.body)))) = true :=
          List.any_eq_true.mpr ⟨f, hf, by simp [hfid]⟩
        rw [hany] at htrue
        cases htrue
      have hsing : List.filterMap (fun f => f.properties.id)
          [addFeature env (parseIssueFormBody issue.body) t la ln
            (resolvedAddId env (parseIssueFormBody issue.body))] =
          [resolvedAddId env (parseIssueFormBody issue.body)] := rfl
      rw [hsing, List.nodup_append]
      exact ⟨hnod, List.nodup_singleton _,
        fun a ha hb => hnotin (by rwa [List.mem_singleton.mp hb] at ha)⟩

/-- Witness for C1: adding with the already-present id `a` fails and
leaves the collection unchanged; adding a fresh id `b` succeeds with no
duplicate ids in the result. -/
theorem C1_add_uniqueness_witness :
    ((∃ m, (applyMutation wEnv
        { body := "### Title\nT\n### Marker Id\na\n### Latitude\n10\n### Longitude\n5"
          labels := [⟨"marker-add"⟩] } ⟨[featA]⟩).1 = MStatus.outcome false m) ∧
      (applyMutation wEnv
        { body := "### Title\nT\n### Marker Id\na\n### Latitude\n10\n### Longitude\n5"
          labels := [⟨"marker-add"⟩] } ⟨[featA]⟩).2 = ⟨[featA]⟩) ∧
    (idsOf (applyMutation wEnv
        { body := "### Title\nT\n### Marker Id\nb\n### Latitude\n10\n### Longitude\n5"
          labels := [⟨"marker-add"⟩] } ⟨[featA]⟩).2).Nodup :=
  ⟨(C1_add_uniqueness wEnv
      { body := "### Title\nT\n### Marker Id\na\n### Latitude\n10\n### Longitude\n5"
        labels := [⟨"marker-add"⟩] } ⟨[featA]⟩ (by decide)).1
      ⟨featA, by decide, by decide⟩,
   (C1_add_uniqueness wEnv
      { body := "### Title\nT\n### Marker Id\nb\n### Latitude\n10\n### Longitude\n5"
        labels := [⟨"marker-add"⟩] } ⟨[featA]⟩ (by decide)).2 (by decide) (by decide)⟩

/-! ## C2 -/

/-- C2 counterexample: the collection is not re-sorted after a
successful update.  On an unsorted collection (`b` before `a`), updating
`b` succeeds and the result is still unsorted, refuting "sorted after
every successful mutation" and in particular the re-sort-after-update
part. -/
theorem C2_counterexample_update_no_resort :
    (applyMutation wEnv { body := "### Marker Id\nb", labels := [⟨"marker-update"⟩] }
        ⟨[featB, featA]⟩).1.isOk = true ∧
    sortedById (applyMutation wEnv { body := "### Marker Id\nb", labels := [⟨"marker-update"⟩] }
        ⟨[featB, featA]⟩).2 = false := by
  exact ⟨by decide, by decide⟩

/-- C2 (amended): after every successful add or delete the collection is
sorted by id (those paths re-sort); a successful update does not re-sort
but preserves sortedness: it changes no feature's id, so a collection
sorted before the update is still sorted after it. -/
theorem C2_sorted_after_mutation (env : Env) (issue : Issue) (g : GeoJSON) :
    ((parseIssueType issue.labels = some IssueType.add ∨
      parseIssueType issue.labels = some IssueType.del) →
      (applyMutation env issue g).1.isOk = true →
      sortedById (applyMutation env issue g).2 = true) ∧
    (parseIssueType issue.labels = some IssueType.update →
      (applyMutation env issue g).1.isOk = true →
      sortedById g = true →
      sortedById (applyMutation env issue g).2 = true) := by
  constructor
  · rintro (hty | hty) hok
    · have hm : applyMutation env issue g = applyAdd env (parseIssueFormBody issue.body) g := by
        unfold applyMutation
        rw [hty]
      rw [hm] at hok ⊢
      rcases applyAdd_cases env (parseIssueFormBody issue.body) g with
        ⟨m, hcase⟩ | ⟨t, la, ln, -, -, -, hcase⟩
      · rw [hcase] at hok
        cases hok
      · rw [hcase]
        exact sortedKeys_stableSortFeatures _
    · have hm : applyMutation env issue g = applyDelete (parseIssueFormBody issue.body) g := by
        unfold applyMutation
        rw [hty]
      rw [hm] at hok ⊢
      obtain ⟨id, hid, hshape⟩ := applyDelete_success_shape (parseIssueFormBody issue.body) g hok
      rw [hshape]
      exact sortedKeys_stableSortFeatures _
  · intro hty hok hs
    have hm : applyMutation env issue g = applyUpdate env (parseIssueFormBody issue.body) g := by
      unfold applyMutation
      rw [hty]
    rw [hm] at hok ⊢
    obtain ⟨id, target, geom, hid, hfind, hshape⟩ :=
      applyUpdate_success_shape env (parseIssueFormBody issue.body) g hok
    rw [hshape]
    unfold sortedById at hs ⊢
    simp only
    rw [updateFirst_map_featKey]
    · exact hs
    · intro x hx
      have hxid : x.properties.id = some id := by simpa using hx
      have htid : target.properties.id = some id := by simpa using List.find?_some hfind
      unfold featKey
      simp only
      rw [hxid]
      have : (updatedProps (parseIssueFormBody issue.body)
          (focusFlag (parseIssueFormBody issue.body)) target.properties).id =
          target.properties.id := rfl
      rw [this, htid]

/-- Witness for C2: a successful add on an unsorted collection produces
a sorted result, and a successful update on a sorted collection keeps it
sorted. -/
theorem C2_sorted_after_mutation_witness :
    sortedById (applyMutation wEnv
        { body := "### Title\nT\n### Marker Id\nc\n### Latitude\n10\n### Longitude\n5"
          labels := [⟨"marker-add"⟩] } ⟨[featB, featA]⟩).2 = true ∧
    sortedById (applyMutation wEnv
        { body := "### Marker Id\na", labels := [⟨"marker-update"⟩] } ⟨[featA, featB]⟩).2 = true :=
  ⟨(C2_sorted_after_mutation wEnv
      { body := "### Title\nT\n### Marker Id\nc\n### Latitude\n10\n### Longitude\n5"
        labels := [⟨"marker-add"⟩] } ⟨[featB, featA]⟩).1 (Or.inl (by decide)) (by decide),
   (C2_sorted_after_mutation wEnv
      { body := "### Marker Id\na", labels := [⟨"marker-update"⟩] } ⟨[featA, featB]⟩).2
      (by decide) (by decide) (by decide)⟩

/-! ## C3 -/

/-- If the completed pair (supplied axis plus stored default) validates,
so does the supplied pair alone. -/
theorem supplied_ok_of_next_ok {lat lng : Option ℚ} {t : Feature}
    (h : validateCoordinateRange (nextLatOf lat t) (nextLngOf lng t) = .ok ()) :
    validateCoordinateRange lat lng = .ok () := by
  rw [validateCoordinateRange_ok_iff] at h ⊢
  obtain ⟨h1, h2⟩ := h
  constructor
  · cases lat with
    | none => rfl
    | some q => exact h1
  · cases lng with
    | none => rfl
    | some q => exact h2

/-- C3: an update that supplies exactly one of latitude/longitude (both
parsing as numbers) completes the pair with the target's stored other
axis and validates and writes the pair atomically: on success the target
feature's geometry is a Point carrying both axes (the supplied one and
the stored default together); when the combined pair is out of range the
update does not succeed and the target's geometry is untouched. -/
theorem C3_coordinate_atomicity (env : Env) (issue : Issue) (g : GeoJSON)
    (id : String) (target : Feature) (lat lng : Option ℚ)
    (hty : parseIssueType issue.labels = some IssueType.update)
    (hid : markerIdInput (parseIssueFormBody issue.body) = some id)
    (hfind : g.features.find? (fun f => decide (f.properties.id = some id)) = some target)
    (hlat : parseNumber env.jsNum (latInput (parseIssueFormBody issue.body)) "Latitude" =
      .ok lat)
    (hlng : parseNumber env.jsNum (lngInput (parseIssueFormBody issue.body)) "Longitude" =
      .ok lng)
    (hone : lat.isSome ≠ lng.isSome) :
    (validateCoordinateRange (nextLatOf lat target) (nextLngOf lng target) = .ok () →
      (applyMutation env issue g).1 = success ("Updated marker \"" ++ id ++ "\".") ∧
      ∃ t', (applyMutation env issue g).2.features.find?
          (fun f => decide (f.properties.id = some id)) = some t' ∧
        t'.geometry = some { gtype := "Point"
                             coordinates := [nextLngOf lng target, nextLatOf lat target] }) ∧
    (∀ e, validateCoordinateRange (nextLatOf lat target) (nextLngOf lng target) = .error e →
      (applyMutation env issue g).1.isOk = false ∧
      ∃ t', (applyMutation env issue g).2.features.find?
          (fun f => decide (f.properties.id = some id)) = some t' ∧
        t'.geometry = target.geometry) := by
  have hm : applyMutation env issue g = applyUpdate env (parseIssueFormBody issue.body) g := by
    unfold applyMutation
    rw [hty]
  have hsome : (lat.isSome || lng.isSome) = true := by
    cases lat <;> cases lng <;> simp_all
  have htid : target.properties.id = some id := by simpa using List.find?_some hfind
  have hpc : parseCoords env (parseIssueFormBody issue.body) =
      (match validateCoordinateRange lat lng with
       | .error e => .error e
       | .ok _ => .ok (lat, lng)) := by
    unfold parseCoords
    rw [hlat, hlng]
  constructor
  · intro hvok
    have hsup : validateCoordinateRange lat lng = .ok () := supplied_ok_of_next_ok hvok
    have hres : applyUpdate env (parseIssueFormBody issue.body) g =
        (success ("Updated marker \"" ++ id ++ "\"."),
         ⟨updateFirst g.features (fun f => decide (f.properties.id = some id))
           (fun _ =>
             { target with
               properties :=
                 { updatedProps (parseIssueFormBody issue.body)
                     (focusFlag (parseIssueFormBody issue.body)) target.properties with
                   updated_at := some env.now }
               geometry := some { gtype := "Point"
                                  coordinates := [nextLngOf lng target,
                                    nextLatOf lat target] } })⟩) := by
      unfold applyUpdate
      rw [hid]
      dsimp only
      rw [hfind]
      dsimp only
      rw [hpc, hsup]
      dsimp only
      rw [if_pos hsome, hvok]
    rw [hm, hres]
    refine ⟨rfl, ?_⟩
    simp only
    rw [find?_updateFirst (fun x hx => decide_eq_true (show _ = some id from htid)), hfind]
    exact ⟨_, rfl, rfl⟩
  · intro e hverr
    cases hsup : validateCoordinateRange lat lng with
    | error e0 =>
      have hres : applyUpdate env (parseIssueFormBody issue.body) g = (fail e0, g) := by
        unfold applyUpdate
        rw [hid]
        dsimp only
        rw [hfind]
        dsimp only
        rw [hpc, hsup]
      rw [hm, hres]
      exact ⟨rfl, target, hfind, rfl⟩
    | ok u =>
      cases u
      have hres : applyUpdate env (parseIssueFormBody issue.body) g =
          (MStatus.thrown e,
           ⟨updateFirst g.features (fun f => decide (f.properties.id = some id))
             (fun _ =>
               { target with
                 properties := updatedProps (parseIssueFormBody issue.body)
                   (focusFlag (parseIssueFormBody issue.body)) target.properties })⟩) := by
        unfold applyUpdate
        rw [hid]
        dsimp only
        rw [hfind]
        dsimp only
        rw [hpc, hsup]
        dsimp only
        rw [if_pos hsome, hverr]
      rw [hm, hres]
      refine ⟨rfl, ?_⟩
      simp only
      rw [find?_updateFirst (fun x hx => decide_eq_true (show _ = some id from htid)), hfind]
      exact ⟨_, rfl, rfl⟩

/-- Witness for C3: scenario 3 of the spec — updating `a` (stored at
`[5, 1]`) with only `Latitude 10` writes geometry `[5, 10]`; and with
only `Latitude 100` (stored longitude in range) the pair fails
validation, the update does not succeed, and the geometry is untouched. -/
theorem C3_coordinate_atomicity_witness :
    ((applyMutation wEnv
        { body := "### Marker Id\na\n### Latitude\n10", labels := [⟨"marker-update"⟩] }
        ⟨[featA]⟩).1 = success ("Updated marker \"a\".") ∧
      ∃ t', (applyMutation wEnv
          { body := "### Marker Id\na\n### Latitude\n10", labels := [⟨"marker-update"⟩] }
          ⟨[featA]⟩).2.features.find?
            (fun f => decide (f.properties.id = some "a")) = some t' ∧
        t'.geometry = some { gtype := "Point", coordinates := [some 5, some 10] }) ∧
    ((applyMutation wEnv
        { body := "### Marker Id\na\n### Latitude\n100", labels := [⟨"marker-update"⟩] }
        ⟨[featA]⟩).1.isOk = false ∧
      ∃ t', (applyMutation wEnv
          { body := "### Marker Id\na\n### Latitude\n100", labels := [⟨"marker-update"⟩] }
          ⟨[featA]⟩).2.features.find?
            (fun f => decide (f.properties.id = some "a")) = some t' ∧
        t'.geometry = featA.geometry) :=
  ⟨(C3_coordinate_atomicity wEnv
      { body := "### Marker Id\na\n### Latitude\n10", labels := [⟨"marker-update"⟩] }
      ⟨[featA]⟩ "a" featA (some 10) none (by decide) (by decide) (by decide) rfl
      rfl (by decide)).1 rfl,
   (C3_coordinate_atomicity wEnv
      { body := "### Marker Id\na\n### Latitude\n100", labels := [⟨"marker-update"⟩] }
      ⟨[featA]⟩ "a" featA (some 100) none (by decide) (by decide) (by decide) rfl
      rfl (by decide)).2 "Latitude must be in range -90..90." rfl⟩

/-! ## C5 -/

/-- C5: on every successful update, each optional field (title,
description, link, category, icon) whose cleaned request value is absent
keeps its pre-update value and each one whose cleaned value is present
is overwritten with it, and `updated_at` is always set to the current
timestamp — even when no other field was supplied. -/
theorem C5_partial_update_preservation (env : Env) (issue : Issue) (g : GeoJSON)
    (id : String) (target : Feature)
    (hty : parseIssueType issue.labels = some IssueType.update)
    (hid : markerIdInput (parseIssueFormBody issue.body) = some id)
    (hfind : g.features.find? (fun f => decide (f.properties.id = some id)) = some target)
    (hok : (applyMutation env issue g).1.isOk = true) :
    ∃ t', (applyMutation env issue g).2.features.find?
        (fun f => decide (f.properties.id = some id)) = some t' ∧
      t'.properties.title =
        pick (cleanOptional (getField (parseIssueFormBody issue.body) "title"))
          target.properties.title ∧
      t'.properties.description =
        pick (cleanOptional (getField (parseIssueFormBody issue.body) "description"))
          target.properties.description ∧
      t'.properties.link =
        pick (cleanOptional (getField (parseIssueFormBody issue.body) "link"))
          target.properties.link ∧
      t'.properties.category =
        pick (cleanOptional (getField (parseIssueFormBody issue.body) "category"))
          target.properties.category ∧
      t'.properties.icon =
        pick (cleanOptional (getField (parseIssueFormBody issue.body) "icon"))
          target.properties.icon ∧
      t'.properties.updated_at = some env.now := by
  have hm : applyMutation env issue g = applyUpdate env (parseIssueFormBody issue.body) g := by
    unfold applyMutation
    rw [hty]
  rw [hm] at hok ⊢
  obtain ⟨id0, target0, geom, hid0, hfind0, hshape⟩ :=
    applyUpdate_success_shape env (parseIssueFormBody issue.body) g hok
  rw [hid] at hid0
  injection hid0 with hideq
  subst hideq
  rw [hfind] at hfind0
  injection hfind0 with hteq
  subst hteq
  have htid : target.properties.id = some id := by simpa using List.find?_some hfind
  rw [hshape]
  simp only
  rw [find?_updateFirst (fun x hx => decide_eq_true (show _ = some id from htid)), hfind]
  exact ⟨_, rfl, rfl, rfl, rfl, rfl, rfl, rfl⟩

/-- Witness for C5: updating `a` with a new title and no other field
overwrites the title, keeps description/link/category/icon, and stamps
`updated_at` with the current time. -/
theorem C5_partial_update_preservation_witness :
    ∃ t', (applyMutation wEnv
        { body := "### Marker Id\na\n### Title\nNew name", labels := [⟨"marker-update"⟩] }
        ⟨[featA]⟩).2.features.find?
          (fun f => decide (f.properties.id = some "a")) = some t' ∧
      t'.properties.title =
        pick (cleanOptional (getField
          (parseIssueFormBody "### Marker Id\na\n### Title\nNew name") "title"))
          featA.properties.title ∧
      t'.properties.description =
        pick (cleanOptional (getField
          (parseIssueFormBody "### Marker Id\na\n### Title\nNew name") "description"))
          featA.properties.description ∧
      t'.properties.link =
        pick (cleanOptional (getField
          (parseIssueFormBody "### Marker Id\na\n### Title\nNew name") "link"))
          featA.properties.link ∧
      t'.properties.category =
        pick (cleanOptional (getField
          (parseIssueFormBody "### Marker Id\na\n### Title\nNew name") "category"))
          featA.properties.category ∧
      t'.properties.icon =
        pick (cleanOptional (getField
          (parseIssueFormBody "### Marker Id\na\n### Title\nNew name") "icon"))
          featA.properties.icon ∧
      t'.properties.updated_at = some wEnv.now :=
  C5_partial_update_preservation wEnv
    { body := "### Marker Id\na\n### Title\nNew name", labels := [⟨"marker-update"⟩] }
    ⟨[featA]⟩ "a" featA (by decide) (by decide) (by decide) (by decide)

/-! ## C10 -/

/-- C10: a field value that is empty after trimming or equals the
parenthesized placeholder `(none)`/`(no change)` (case-insensitively)
cleans to absent; consequently an add omits that optional property from
the new feature, and an update keeps the prior stored value instead of
overwriting it with the placeholder text. -/
theorem C10_placeholder_treated_absent (env : Env) (issue : Issue) (g : GeoJSON) :
    (∀ v : String,
      (jsTrim v = "" ∨ toLowerStr (jsTrim v) = "(none)" ∨
        toLowerStr (jsTrim v) = "(no change)") →
      cleanOptional (some v) = none) ∧
    (parseIssueType issue.labels = some IssueType.add →
      (applyMutation env issue g).1.isOk = true →
      ∃ newF, List.Perm (applyMutation env issue g).2.features (g.features ++ [newF]) ∧
        (cleanOptional (getField (parseIssueFormBody issue.body) "description") = none →
          newF.properties.description = none) ∧
        (cleanOptional (getField (parseIssueFormBody issue.body) "link") = none →
          newF.properties.link = none) ∧
        (cleanOptional (getField (parseIssueFormBody issue.body) "category") = none →
          newF.properties.category = none) ∧
        (cleanOptional (getField (parseIssueFormBody issue.body) "icon") = none →
          newF.properties.icon = none)) ∧
    (∀ id target,
      parseIssueType issue.labels = some IssueType.update →
      markerIdInput (parseIssueFormBody issue.body) = some id →
      g.features.find? (fun f => decide (f.properties.id = some id)) = some target →
      (applyMutation env issue g).1.isOk = true →
      ∃ t', (applyMutation env issue g).2.features.find?
          (fun f => decide (f.properties.id = some id)) = some t' ∧
        (cleanOptional (getField (parseIssueFormBody issue.body) "title") = none →
          t'.properties.title = target.properties.title) ∧
        (cleanOptional (getField (parseIssueFormBody issue.body) "description") = none →
          t'.properties.description = target.properties.description) ∧
        (cleanOptional (getField (parseIssueFormBody issue.body) "link") = none →
          t'.properties.link = target.properties.link) ∧
        (cleanOptional (getField (parseIssueFormBody issue.body) "category") = none →
          t'.properties.category = target.properties.category) ∧
        (cleanOptional (getField (parseIssueFormBody issue.body) "icon") = none →
          t'.properties.icon = target.properties.icon)) := by
  refine ⟨?_, ?_, ?_⟩
  · intro v hv
    unfold cleanOptional
    dsimp only
    by_cases hv0 : v = ""
    · rw [if_pos hv0]
    · rw [if_neg hv0, if_pos hv]
  · intro hty hok
    have hm : applyMutation env issue g = applyAdd env (parseIssueFormBody issue.body) g := by
      unfold applyMutation
      rw [hty]
    rw [hm] at hok ⊢
    rcases applyAdd_cases env (parseIssueFormBody issue.body) g with
      ⟨m, hcase⟩ | ⟨t, la, ln, -, -, -, hcase⟩
    · rw [hcase] at hok
      cases hok
    · rw [hcase]
      exact ⟨addFeature env (parseIssueFormBody issue.body) t la ln
          (resolvedAddId env (parseIssueFormBody issue.body)),
        stableSortFeatures_perm _, fun h => h, fun h => h, fun h => h, fun h => h⟩
  · intro id target hty hid hfind hok
    have hm : applyMutation env issue g = applyUpdate env (parseIssueFormBody issue.body) g := by
      unfold applyMutation
      rw [hty]
    rw [hm] at hok ⊢
    obtain ⟨id0, target0, geom, hid0, hfind0, hshape⟩ :=
      applyUpdate_success_shape env (parseIssueFormBody issue.body) g hok
    rw [hid] at hid0
    injection hid0 with hideq
    subst hideq
    rw [hfind] at hfind0
    injection hfind0 with hteq
    subst hteq
    have htid : target.properties.id = some id := by simpa using List.find?_some hfind
    rw [hshape]
    simp only
    rw [find?_updateFirst (fun x hx => decide_eq_true (show _ = some id from htid)), hfind]
    refine ⟨_, rfl, fun h => ?_, fun h => ?_, fun h => ?_, fun h => ?_, fun h => ?_⟩
    · show pick (cleanOptional (getField (parseIssueFormBody issue.body) "title"))
        target.properties.title = target.properties.title
      rw [h]
      rfl
    · show pick (cleanOptional (getField (parseIssueFormBody issue.body) "description"))
        target.properties.description = target.properties.description
      rw [h]
      rfl
    · show pick (cleanOptional (getField (parseIssueFormBody issue.body) "link"))
        target.properties.link = target.properties.link
      rw [h]
      rfl
    · show pick (cleanOptional (getField (parseIssueFormBody issue.body) "category"))
        target.properties.category = target.properties.category
      rw [h]
      rfl
    · show pick (cleanOptional (getField (parseIssueFormBody issue.body) "icon"))
        target.properties.icon = target.properties.icon
      rw [h]
      rfl

/-- Witness for C10: `(none)` cleans to absent; an add whose description
field is `(none)` omits the property; an update whose description field
is `(no change)` keeps the stored description. -/
theorem C10_placeholder_treated_absent_witness :
    cleanOptional (some " (None) ") = none ∧
    (∃ newF, List.Perm (applyMutation wEnv
        { body := "### Title\nT\n### Marker Id\nc\n### Latitude\n10\n### Longitude\n5\n### Description\n(none)"
          labels := [⟨"marker-add"⟩] } ⟨[featA]⟩).2.features
        ((⟨[featA]⟩ : GeoJSON).features ++ [newF]) ∧
      (cleanOptional (getField (parseIssueFormBody
          "### Title\nT\n### Marker Id\nc\n### Latitude\n10\n### Longitude\n5\n### Description\n(none)")
          "description") = none →
        newF.properties.description = none) ∧
      (cleanOptional (getField (parseIssueFormBody
          "### Title\nT\n### Marker Id\nc\n### Latitude\n10\n### Longitude\n5\n### Description\n(none)")
          "link") = none →
        newF.properties.link = none) ∧
      (cleanOptional (getField (parseIssueFormBody
          "### Title\nT\n### Marker Id\nc\n### Latitude\n10\n### Longitude\n5\n### Description\n(none)")
          "category") = none →
        newF.properties.category = none) ∧
      (cleanOptional (getField (parseIssueFormBody
          "### Title\nT\n### Marker Id\nc\n### Latitude\n10\n### Longitude\n5\n### Description\n(none)")
          "icon") = none →
        newF.properties.icon = none)) :=
  ⟨(C10_placeholder_treated_absent wEnv
      { body := "", labels := [] } ⟨[]⟩).1 " (None) " (by decide),
   (C10_placeholder_treated_absent wEnv
      { body := "### Title\nT\n### Marker Id\nc\n### Latitude\n10\n### Longitude\n5\n### Description\n(none)"
        labels := [⟨"marker-add"⟩] } ⟨[featA]⟩).2.1 (by decide) (by decide)⟩

/-! ## C7 -/

/-- A binding looked up after a `setKey` is either the freshly stored
field or was already present. -/
theorem lookupKey_setKey_cases {res : Parsed} {k k0 : String} {fld f0 : Field}
    (h : lookupKey (setKey res k fld) k0 = some f0) :
    f0 = fld ∨ lookupKey res k0 = some f0 := by
  induction res with
  | nil =>
    unfold setKey lookupKey at h
    split at h
    · refine Or.inl ?_
      injection h with h'
      exact h'.symm
    · cases h
  | cons p rest ih =>
    obtain ⟨k1, f1⟩ := p
    unfold setKey at h
    split at h
    · rename_i hk1
      unfold lookupKey at h
      split at h
      · refine Or.inl ?_
        injection h with h'
        exact h'.symm
      · rename_i hne
        right
        unfold lookupKey
        rw [if_neg (by rw [hk1]; exact hne)]
        exact h
    · rename_i hk1
      unfold lookupKey at h
      split at h
      · rename_i he
        right
        unfold lookupKey
        rw [if_pos he]
        exact h
      · rename_i hne
        rcases ih h with h1 | h2
        · exact Or.inl h1
        · right
          unfold lookupKey
          rw [if_neg hne]
          exact h2

/-- Every field the parser's scan loop ever stores is `mkField` of some
line buffer. -/
theorem parseLoop_mkField :
    ∀ (lines : List String) (curr : Option String) (buffer : List String) (res : Parsed),
    (∀ k f, lookupKey res k = some f → ∃ b, f = mkField b) →
    ∀ k f, lookupKey (parseLoop lines curr buffer res) k = some f → ∃ b, f = mkField b := by
  intro lines
  induction lines with
  | nil =>
    intro curr buffer res hres k f h
    unfold parseLoop flushInto at h
    cases curr with
    | none => exact hres k f h
    | some key =>
      rcases lookupKey_setKey_cases h with heq | hold
      · exact ⟨buffer, heq⟩
      · exact hres k f hold
  | cons line rest ih =>
    intro curr buffer res hres k f h
    unfold parseLoop at h
    split at h
    · refine ih _ _ _ ?_ k f h
      intro k1 f1 h1
      unfold flushInto at h1
      cases curr with
      | none => exact hres k1 f1 h1
      | some key =>
        rcases lookupKey_setKey_cases h1 with heq | hold
        · exact ⟨buffer, heq⟩
        · exact hres k1 f1 hold
    · split at h
      · exact ih _ _ _ hres k f h
      · split at h
        · exact ih _ _ _ hres k f h
        · exact ih _ _ _ hres k f h

/-- C7 counterexample: the cleaned value does not strip unchecked
checkbox markers.  For the body `### Notes` / `- [ ] keep me`, the raw
and cleaned values are both `- [ ] keep me` (the `- [ ]` marker
survives), refuting "strips leading checkbox markers of both forms". -/
theorem C7_counterexample_unchecked_not_stripped :
    lookupKey (parseIssueFormBody "### Notes\n- [ ] keep me") "notes" =
      some { raw := "- [ ] keep me", value := "- [ ] keep me", checked := false } ∧
    ("- [ ] keep me" : String) ≠ "keep me" := by
  exact ⟨by decide, by decide⟩

/-- C7 (amended): for every string input and every key in the parser's
result, the field is built from some buffered block of lines: its raw
body is that block joined by newlines and trimmed (with `---` lines
dropped during buffering), its cleaned value strips the whole-body
`_No response_` placeholder and strips leading checked markers
(`- [x]`/`- [X]`, not the unchecked form `- [ ]`) with their trailing
whitespace from line starts and trims, and its checked flag is true
exactly when the raw body contains the substring `- [x]` or `- [X]`
anywhere. -/
theorem C7_parser_field_semantics (body k : String) (fld : Field)
    (h : lookupKey (parseIssueFormBody body) k = some fld) :
    (∃ buffer, fld.raw = jsTrim (String.intercalate "\n" buffer)) ∧
    fld.value = cleanOfRaw fld.raw ∧
    fld.checked = rawMarked fld.raw := by
  obtain ⟨b, hb⟩ := parseLoop_mkField _ none [] []
    (by intro k1 f1 h1; cases h1) k fld h
  subst hb
  exact ⟨⟨b, rfl⟩, rfl, rfl⟩

/-- Witness for C7: a checked `- [x]` block is stripped in the cleaned
value and sets the checked flag. -/
theorem C7_parser_field_semantics_witness :
    (∃ buffer, (Field.mk "- [x] done" "done" true).raw =
      jsTrim (String.intercalate "\n" buffer)) ∧
    (Field.mk "- [x] done" "done" true).value = cleanOfRaw (Field.mk "- [x] done" "done" true).raw ∧
    (Field.mk "- [x] done" "done" true).checked = rawMarked (Field.mk "- [x] done" "done" true).raw :=
  C7_parser_field_semantics "### Confirm\n- [x] done" "confirm"
    (Field.mk "- [x] done" "done" true) (by decide)

/-! ## C8: per-rule emptiness lemmas -/

theorem titlePart_nil (pfx : String) (f : JVal) :
    titlePart pfx f = [] ↔ ruleTitle f = true := by
  unfold titlePart ruleTitle
  cases h : propGet f "title" with
  | none => simp
  | some v =>
    cases v with
    | str s => by_cases hs : s = "" <;> simp [hs]
    | null => simp
    | bool b => simp
    | num q => simp
    | arr l => simp
    | obj l => simp

theorem linkPart_nil (urlOk : JVal → Bool) (pfx : String) (f : JVal) :
    linkPart urlOk pfx f = [] ↔ ruleLink urlOk f = true := by
  unfold linkPart ruleLink
  cases h : propGet f "link" with
  | none => simp
  | some v => cases ht : truthy v <;> cases hu : urlOk v <;> simp [ht, hu]

theorem iconPart_nil (urlOk : JVal → Bool) (pfx : String) (f : JVal) :
    iconPart urlOk pfx f = [] ↔ ruleIcon urlOk f = true := by
  unfold iconPart ruleIcon
  cases h : propGet f "icon" with
  | none => simp
  | some v =>
    cases ht : truthy v <;> cases hd : strIs (some v) "default" <;> cases hu : urlOk v <;>
      simp [ht, hd, hu]

theorem updatedPart_nil (dateOk : JVal → Bool) (pfx : String) (f : JVal) :
    updatedPart dateOk pfx f = [] ↔ ruleUpdated dateOk f = true := by
  unfold updatedPart ruleUpdated
  cases h : propGet f "updated_at" with
  | none => simp
  | some v => cases ht : truthy v <;> cases hd : dateOk v <;> simp [ht, hd]

theorem rangePart_nil (pfx : String) (lngV latV : JVal) :
    rangePart pfx lngV latV = [] ↔
      ((match latV with
        | JVal.num q => decide (-90 ≤ q ∧ q ≤ 90)
        | _ => false) &&
       (match lngV with
        | JVal.num q => decide (-180 ≤ q ∧ q ≤ 180)
        | _ => false)) = true := by
  unfold rangePart
  cases latV <;> cases lngV <;>
    simp only [List.append_eq_nil, Bool.and_eq_true, decide_eq_true_eq] <;>
    simp

theorem geomPart_nil (pfx : String) (f : JVal) :
    geomPart pfx f = [] ↔ ruleGeometry f = true := by
  unfold geomPart ruleGeometry
  cases hg : getProp f "geometry" with
  | none => simp
  | some gv =>
    cases hpt : strIs (getProp gv "type") "Point" with
    | false => simp [hpt]
    | true =>
      simp only [hpt, if_true, Bool.true_and]
      cases hco : getProp gv "coordinates" with
      | none => simp
      | some cv =>
        cases cv with
        | arr l =>
          match l with
          | [] => simp
          | [a] => simp
          | [lngV, latV] => simpa using rangePart_nil pfx lngV latV
          | a :: b :: c :: rest => simp
        | null => simp
        | bool b => simp
        | num q => simp
        | str s => simp
        | obj o => simp

theorem idPart_of_specId_none (pfx : String) (ids : List String) (f : JVal)
    (h : specIdOf f = none) : idPart pfx ids f = ([idMsg pfx], ids) := by
  unfold specIdOf at h
  unfold idPart
  cases hp : propGet f "id" with
  | none => rfl
  | some v =>
    rw [hp] at h
    cases v with
    | str s =>
      dsimp only at h ⊢
      by_cases hs : s = ""
      · rw [if_pos hs]
      · rw [if_neg hs] at h
        cases h
    | null => rfl
    | bool b => rfl
    | num q => rfl
    | arr l => rfl
    | obj o => rfl

theorem idPart_of_specId_some (pfx : String) (ids : List String) (f : JVal) (s : String)
    (h : specIdOf f = some s) :
    idPart pfx ids f =
      if ids.contains s then ([dupMsg pfx s], ids) else ([], ids ++ [s]) := by
  unfold specIdOf at h
  unfold idPart
  cases hp : propGet f "id" with
  | none =>
    rw [hp] at h
    cases h
  | some v =>
    rw [hp] at h
    cases v with
    | str s0 =>
      dsimp only at h ⊢
      by_cases hs : s0 = ""
      · rw [if_pos hs] at h
        cases h
      · rw [if_neg hs] at h
        injection h with hse
        subst hse
        rw [if_neg hs]
    | null => cases h
    | bool b => cases h
    | num q => cases h
    | arr l => cases h
    | obj o => cases h

/-- One forEach step produces no errors iff the feature passes every
per-feature rule and its id is fresh relative to the seen set. -/
theorem validateFeature_nil_iff (urlOk dateOk : JVal → Bool) (idx : Nat)
    (ids : List String) (f : JVal) :
    (validateFeature urlOk dateOk idx ids f).1 = [] ↔
      (specFeatureOk urlOk dateOk f = true ∧
        ∃ s, specIdOf f = some s ∧ ids.contains s = false) := by
  unfold validateFeature specFeatureOk ruleFeatureTag
  by_cases htag : strIs (getProp f "type") "Feature" = true
  · rw [if_pos htag]
    dsimp only
    simp only [htag, Bool.true_and]
    cases hs : specIdOf f with
    | none =>
      rw [idPart_of_specId_none _ _ _ hs]
      simp [hs]
    | some s =>
      rw [idPart_of_specId_some _ _ _ _ hs]
      by_cases hc : ids.contains s = true
      · rw [if_pos hc]
        dsimp only
        simp only [List.cons_append, List.append_eq_nil, List.cons_ne_nil, false_and,
          false_iff, not_and, hs]
        intro h1 h2
        obtain ⟨s1, hs1, hcs1⟩ := h2
        injection hs1 with hse
        subst hse
        rw [hc] at hcs1
        cases hcs1
      · have hc' : ids.contains s = false := by simpa using hc
        rw [if_neg hc]
        dsimp only
        simp only [List.nil_append, List.append_eq_nil]
        rw [titlePart_nil, linkPart_nil, iconPart_nil, updatedPart_nil, geomPart_nil]
        constructor
        · rintro ⟨⟨⟨⟨h1, h2⟩, h3⟩, h4⟩, h5⟩
          refine ⟨?_, s, rfl, hc'⟩
          simp [h1, h2, h3, h4, h5]
        · rintro ⟨hall, -⟩
          rw [Bool.and_eq_true, Bool.and_eq_true, Bool.and_eq_true, Bool.and_eq_true,
            Bool.and_eq_true] at hall
          exact ⟨⟨⟨⟨hall.1.1.1.1.2, hall.1.1.1.2⟩, hall.1.1.2⟩, hall.1.2⟩, hall.2⟩
  · rw [if_neg htag]
    rw [Bool.not_eq_true] at htag
    simp [htag]

/-- When a step produces no errors, the seen-id set grows by exactly the
feature's id. -/
theorem validateFeature_ids_of_nil (urlOk dateOk : JVal → Bool) (idx : Nat)
    (ids : List String) (f : JVal) (s : String)
    (hnil : (validateFeature urlOk dateOk idx ids f).1 = [])
    (hs : specIdOf f = some s) :
    (validateFeature urlOk dateOk idx ids f).2 = ids ++ [s] := by
  unfold validateFeature at hnil ⊢
  by_cases htag : strIs (getProp f "type") "Feature" = true
  · rw [if_pos htag] at hnil ⊢
    dsimp only at hnil ⊢
    rw [idPart_of_specId_some _ _ _ _ hs] at hnil ⊢
    by_cases hc : ids.contains s = true
    · rw [if_pos hc] at hnil
      cases hnil
    · rw [if_neg hc]
  · rw [if_neg htag] at hnil
    cases hnil

theorem contains_iff_mem_str {l : List String} {s : String} :
    l.contains s = true ↔ s ∈ l := by
  simp

/-- The whole `forEach` produces no errors iff every feature passes the
per-feature rules and the ids (together with the already-seen set) are
pairwise distinct. -/
theorem validateFeatures_nil_iff (urlOk dateOk : JVal → Bool) :
    ∀ (fs : List JVal) (idx : Nat) (ids : List String), ids.Nodup →
    (validateFeatures urlOk dateOk fs idx ids = [] ↔
      ((∀ f ∈ fs, specFeatureOk urlOk dateOk f = true) ∧
        (ids ++ fs.filterMap specIdOf).Nodup)) := by
  intro fs
  induction fs with
  | nil =>
    intro idx ids hnd
    simp [validateFeatures, hnd]
  | cons f rest ih =>
    intro idx ids hnd
    unfold validateFeatures
    rw [List.append_eq_nil]
    constructor
    · rintro ⟨h1, h2⟩
      obtain ⟨hfok, s, hs, hc⟩ := (validateFeature_nil_iff urlOk dateOk idx ids f).mp h1
      have hsnotin : s ∉ ids := fun hmem => by
        rw [contains_iff_mem_str.mpr hmem] at hc
        cases hc
      have hids2 := validateFeature_ids_of_nil urlOk dateOk idx ids f s h1 hs
      rw [hids2] at h2
      have hnd2 : (ids ++ [s]).Nodup := by
        rw [List.nodup_append]
        exact ⟨hnd, List.nodup_singleton s,
          fun a ha hb => by rw [List.mem_singleton.mp hb] at ha; exact hsnotin ha⟩
      obtain ⟨hall, hnd3⟩ := (ih (idx + 1) (ids ++ [s]) hnd2).mp h2
      refine ⟨?_, ?_⟩
      · intro f0 hf0
        rcases List.mem_cons.mp hf0 with heq | hmem
        · rw [heq]
          exact hfok
        · exact hall f0 hmem
      · rw [List.filterMap_cons, hs]
        rw [List.append_assoc] at hnd3
        simpa using hnd3
    · rintro ⟨hall, hnd1⟩
      have hfok : specFeatureOk urlOk dateOk f = true := hall f (by simp)
      have hs : ∃ s, specIdOf f = some s := by
        rcases hios : specIdOf f with - | s
        · exfalso
          unfold specFeatureOk at hfok
          rw [hios] at hfok
          simp at hfok
        · exact ⟨s, rfl⟩
      obtain ⟨s, hs⟩ := hs
      rw [List.filterMap_cons, hs] at hnd1
      have hnd1' : ((ids ++ [s]) ++ rest.filterMap specIdOf).Nodup := by
        rw [List.append_assoc]
        simpa using hnd1
      have hsnotin : s ∉ ids := by
        intro hmem
        exact (List.nodup_append.mp hnd1).2.2 hmem (List.mem_cons_self s _)
      have hc : ids.contains s = false := by
        cases hcv : ids.contains s with
        | false => rfl
        | true => exact absurd (contains_iff_mem_str.mp hcv) hsnotin
      have h1 : (validateFeature urlOk dateOk idx ids f).1 = [] :=
        (validateFeature_nil_iff urlOk dateOk idx ids f).mpr ⟨hfok, s, hs, hc⟩
      have hids2 := validateFeature_ids_of_nil urlOk dateOk idx ids f s h1 hs
      refine ⟨h1, ?_⟩
      rw [hids2]
      exact (ih (idx + 1) (ids ++ [s])
        ((List.nodup_append.mp hnd1').1)).mpr
        ⟨fun f0 hf0 => hall f0 (List.mem_cons_of_mem f hf0), hnd1'⟩

/-- C8: for every candidate value (and every URL-validity and
date-parseability oracle), the validator returns the empty violation
list exactly when the value satisfies every rule of §4.2: a
feature-collection root with an array `features` field; every entry
tagged `Feature`; `id` a required non-empty string unique within the
pass; `title` a required non-empty string; `link`/`icon` (when present,
i.e. truthy) valid URLs with `icon` also allowed to be `default`;
`updated_at` present and date-parseable; geometry a `Point` with exactly
two numeric coordinates, latitude (second) in [-90, 90] and longitude
(first) in [-180, 180]. -/
theorem C8_validator_roundtrip (urlOk dateOk : JVal → Bool) (v : JVal) :
    validateGeoJSON urlOk dateOk v = [] ↔ specValid urlOk dateOk v = true := by
  unfold validateGeoJSON specValid
  by_cases hroot : strIs (getProp v "type") "FeatureCollection" = true
  · rw [if_pos hroot]
    simp only [hroot, Bool.true_and]
    cases hfe : getProp v "features" with
    | none => simp
    | some fv =>
      cases fv with
      | arr fs =>
        rw [validateFeatures_nil_iff urlOk dateOk fs 0 [] List.nodup_nil]
        simp [List.all_eq_true]
      | null => simp
      | bool b => simp
      | num q => simp
      | str s => simp
      | obj o => simp
  · rw [if_neg hroot]
    rw [Bool.not_eq_true] at hroot
    simp [hroot]

end SseMap